import Mathlib

/-!
# IFastSettlementV3 Go binding: call wrappers, constructors, event-log iterators and watchers

A shallow embedding of `contracts-abi/clients/IFastSettlementV3/IFastSettlementV3.go`.

* Go pointers that may be nil are `Option`; the Go `error` interface is `Option GoError`.
* A Go channel is its queue of pending values together with its closed flag (`Chan`).
* `select` picks among the ready cases; when several are ready the choice is an
  explicit argument (`SelectCase`), so every theorem quantifies over the scheduler.
* The go-ethereum library (`bind.BoundContract`, `ethereum.Subscription`, `GetAbi`,
  `NewBoundContract`) is not part of the binding: its behaviour is a parameter
  (`BoundContract`, `SubscriptionImpl`, `BindLibrary`).
* Calls into the bound contract are recorded next to the result (`calls`), so that a
  theorem can say which calls a wrapper makes.
* A `WatchX` task is a step function over the outcomes of its selects (`WatchTask.step`).
* The `ABI` string of the metadata is kept as the JSON array it spells out.
-/

namespace Ifastsettlementv3

/-! ## Library types used by the binding -/

/-- Go `common.Address`: a 20-byte value. -/
abbrev Address := Fin (2 ^ 160)

/-- Go `types.Log`: a raw contract log as the chain backend hands it over. -/
structure Log where
  Address : Address
  Topics : List Nat
  Data : List Nat
  BlockNumber : Nat
  TxHash : Nat
  TxIndex : Nat
  BlockHash : Nat
  Index : Nat
  Removed : Bool
deriving DecidableEq, Repr

/-- Zero value of `types.Log`, what a receive on a closed empty channel yields. -/
def Log.zero : Log :=
  { Address := 0, Topics := [], Data := [], BlockNumber := 0, TxHash := 0, TxIndex := 0,
    BlockHash := 0, Index := 0, Removed := false }

/-- A non-nil Go `error` value. The Go type `error` itself is `Option GoError`. -/
structure GoError where
  msg : String
deriving DecidableEq, Repr

/-- A Go channel: the values sent and not yet received, oldest first, and whether the
channel has been closed. -/
structure Chan (α : Type) where
  buf : List α
  closed : Bool
deriving DecidableEq, Repr

/-- Channel receive `<-c` as a select case: `none` when the case is not ready (empty and
open), otherwise the received value and the channel afterwards. A closed empty channel is
always ready and yields the zero value. -/
def Chan.recv {α : Type} (zero : α) (c : Chan α) : Option (α × Chan α) :=
  match c.buf with
  | x :: rest => some (x, { c with buf := rest })
  | [] => if c.closed then some (zero, c) else none

/-- Go `ethereum.Subscription` as seen by its holder: the channel returned by `Err()` and
the number of `Unsubscribe()` calls issued on it so far. -/
structure Subscription where
  errc : Chan (Option GoError)
  unsubscribed : Nat
deriving DecidableEq, Repr

/-- The backend side of `Unsubscribe()`: what the implementation does to the error channel.
The binding does not define it. -/
structure SubscriptionImpl where
  onUnsubscribe : Subscription → Chan (Option GoError)

/-- Call `sub.Unsubscribe()`: the call is counted and the implementation acts on the error
channel. -/
def Subscription.Unsubscribe (impl : SubscriptionImpl) (s : Subscription) : Subscription :=
  { errc := impl.onUnsubscribe s, unsubscribed := s.unsubscribed + 1 }

/-- Go `bind.FilterOpts` (the context is left out). -/
structure FilterOpts where
  Start : Nat
  End : Option Nat
deriving DecidableEq, Repr

/-- Go `bind.WatchOpts` (the context is left out). -/
structure WatchOpts where
  Start : Option Nat
deriving DecidableEq, Repr

/-- Go `bind.CallOpts` (the context is left out). -/
structure CallOpts where
  Pending : Bool
  From : Address
  BlockNumber : Option Int
deriving DecidableEq, Repr

/-- Go `bind.TransactOpts` (the signer and the context are left out); `*big.Int` fields
are `Option Int`. -/
structure TransactOpts where
  From : Address
  Nonce : Option Int
  Value : Option Int
  GasPrice : Option Int
  GasLimit : Nat
  NoSend : Bool
deriving DecidableEq, Repr

/-- Go `types.Transaction`, the handle of a submitted transaction. -/
structure Transaction where
  hash : Nat
deriving DecidableEq, Repr

/-- Go `[]byte`. -/
abbrev Bytes := List (Fin 256)

/-! ## Argument structs -/

/-- Go struct `IFastSettlementV3Intent`; `*big.Int` fields are `Option Int`. -/
structure IFastSettlementV3Intent where
  User : Address
  InputToken : Address
  OutputToken : Address
  InputAmt : Option Int
  UserAmtOut : Option Int
  Recipient : Address
  Deadline : Option Int
  Nonce : Option Int
deriving DecidableEq, Repr

/-- Go struct `IFastSettlementV3SwapCall`. -/
structure IFastSettlementV3SwapCall where
  To : Address
  Value : Option Int
  Data : Bytes
deriving DecidableEq, Repr

/-- Go `interface{}` values the binding hands to the bound contract: the elements of
filter rules and the parameters of transactions. -/
inductive Any where
  | address (a : Address)
  | bigInt (n : Option Int)
  | bytes (b : Bytes)
  | addressSlice (xs : List Address)
  | boolSlice (xs : List Bool)
  | intent (i : IFastSettlementV3Intent)
  | swapCall (c : IFastSettlementV3SwapCall)
deriving DecidableEq, Repr

/-! ## Event records -/

/-- Record of an `ExecutorUpdated` event. -/
structure Ifastsettlementv3ExecutorUpdated where
  OldExecutor : Address
  NewExecutor : Address
  Raw : Log
deriving DecidableEq, Repr

/-- Record of an `IntentExecuted` event; `*big.Int` fields are `Option Int`. -/
structure Ifastsettlementv3IntentExecuted where
  User : Address
  InputToken : Address
  OutputToken : Address
  InputAmt : Option Int
  UserAmtOut : Option Int
  Received : Option Int
  Surplus : Option Int
  Raw : Log
deriving DecidableEq, Repr

/-- Record of a `SwapTargetsUpdated` event. -/
structure Ifastsettlementv3SwapTargetsUpdated where
  Targets : List Address
  Allowed : List Bool
  Raw : Log
deriving DecidableEq, Repr

/-- Record of a `TreasuryUpdated` event. -/
structure Ifastsettlementv3TreasuryUpdated where
  OldTreasury : Address
  NewTreasury : Address
  Raw : Log
deriving DecidableEq, Repr

/-- The four events of the contract; every iterator, parser and filter of the binding
exists once per event. -/
inductive EventKind where
  | ExecutorUpdated
  | IntentExecuted
  | SwapTargetsUpdated
  | TreasuryUpdated
deriving DecidableEq, Repr

/-- Record type of an event. -/
@[reducible] def Record : EventKind → Type
  | .ExecutorUpdated => Ifastsettlementv3ExecutorUpdated
  | .IntentExecuted => Ifastsettlementv3IntentExecuted
  | .SwapTargetsUpdated => Ifastsettlementv3SwapTargetsUpdated
  | .TreasuryUpdated => Ifastsettlementv3TreasuryUpdated

/-- Go `new(T)` for a record type: all fields zero. -/
def Record.new : (k : EventKind) → Record k
  | .ExecutorUpdated => { OldExecutor := 0, NewExecutor := 0, Raw := Log.zero }
  | .IntentExecuted =>
      { User := 0, InputToken := 0, OutputToken := 0, InputAmt := none, UserAmtOut := none,
        Received := none, Surplus := none, Raw := Log.zero }
  | .SwapTargetsUpdated => { Targets := [], Allowed := [], Raw := Log.zero }
  | .TreasuryUpdated => { OldTreasury := 0, NewTreasury := 0, Raw := Log.zero }

/-- Field read `event.Raw`. -/
def Record.getRaw : {k : EventKind} → Record k → Log
  | .ExecutorUpdated, r => Ifastsettlementv3ExecutorUpdated.Raw r
  | .IntentExecuted, r => Ifastsettlementv3IntentExecuted.Raw r
  | .SwapTargetsUpdated, r => Ifastsettlementv3SwapTargetsUpdated.Raw r
  | .TreasuryUpdated, r => Ifastsettlementv3TreasuryUpdated.Raw r

/-- Assignment `event.Raw = log`. -/
def Record.setRaw : {k : EventKind} → Record k → Log → Record k
  | .ExecutorUpdated, r, log => { r with Raw := log }
  | .IntentExecuted, r, log => { r with Raw := log }
  | .SwapTargetsUpdated, r, log => { r with Raw := log }
  | .TreasuryUpdated, r, log => { r with Raw := log }

/-- Event name literal the binding uses for an event. -/
def EventKind.name : EventKind → String
  | .ExecutorUpdated => "ExecutorUpdated"
  | .IntentExecuted => "IntentExecuted"
  | .SwapTargetsUpdated => "SwapTargetsUpdated"
  | .TreasuryUpdated => "TreasuryUpdated"

/-! ## The embedded ABI -/

/-- A component of a tuple parameter in the ABI JSON. -/
structure AbiField where
  name : String
  type : String
  internalType : String
deriving DecidableEq, Repr

/-- An input or output of an ABI entry; `indexed` is false and `components` is empty
where the JSON leaves the key out. -/
structure AbiParam where
  name : String
  type : String
  internalType : String
  indexed : Bool
  components : List AbiField
deriving DecidableEq, Repr

/-- An entry of the ABI JSON array: `type` is "function", "event" or "error";
`stateMutability` is empty, `outputs` is empty and `anonymous` is false where the JSON
leaves the key out. -/
structure AbiEntry where
  type : String
  name : String
  inputs : List AbiParam
  outputs : List AbiParam
  stateMutability : String
  anonymous : Bool
deriving DecidableEq, Repr

/-- Go `bind.MetaData`; the `ABI` string is kept as the JSON array it spells out, entry
by entry and key by key. -/
structure MetaData where
  ABI : List AbiEntry
deriving DecidableEq, Repr

/-- The variable `Ifastsettlementv3MetaData`. -/
def Ifastsettlementv3MetaData : MetaData :=
  { ABI := [
      { type := "function", name := "executeWithETH",
        inputs := [
          { name := "intent", type := "tuple", internalType := "structIFastSettlementV3.Intent", indexed := false,
            components := [
              { name := "user", type := "address", internalType := "address" },
              { name := "inputToken", type := "address", internalType := "address" },
              { name := "outputToken", type := "address", internalType := "address" },
              { name := "inputAmt", type := "uint256", internalType := "uint256" },
              { name := "userAmtOut", type := "uint256", internalType := "uint256" },
              { name := "recipient", type := "address", internalType := "address" },
              { name := "deadline", type := "uint256", internalType := "uint256" },
              { name := "nonce", type := "uint256", internalType := "uint256" }] },
          { name := "swapData", type := "tuple", internalType := "structIFastSettlementV3.SwapCall", indexed := false,
            components := [
              { name := "to", type := "address", internalType := "address" },
              { name := "value", type := "uint256", internalType := "uint256" },
              { name := "data", type := "bytes", internalType := "bytes" }] }],
        outputs := [
          { name := "received", type := "uint256", internalType := "uint256", indexed := false,
            components := [] },
          { name := "surplus", type := "uint256", internalType := "uint256", indexed := false,
            components := [] }],
        stateMutability := "payable", anonymous := false },
      { type := "function", name := "executeWithPermit",
        inputs := [
          { name := "intent", type := "tuple", internalType := "structIFastSettlementV3.Intent", indexed := false,
            components := [
              { name := "user", type := "address", internalType := "address" },
              { name := "inputToken", type := "address", internalType := "address" },
              { name := "outputToken", type := "address", internalType := "address" },
              { name := "inputAmt", type := "uint256", internalType := "uint256" },
              { name := "userAmtOut", type := "uint256", internalType := "uint256" },
              { name := "recipient", type := "address", internalType := "address" },
              { name := "deadline", type := "uint256", internalType := "uint256" },
              { name := "nonce", type := "uint256", internalType := "uint256" }] },
          { name := "signature", type := "bytes", internalType := "bytes", indexed := false,
            components := [] },
          { name := "swapData", type := "tuple", internalType := "structIFastSettlementV3.SwapCall", indexed := false,
            components := [
              { name := "to", type := "address", internalType := "address" },
              { name := "value", type := "uint256", internalType := "uint256" },
              { name := "data", type := "bytes", internalType := "bytes" }] }],
        outputs := [
          { name := "received", type := "uint256", internalType := "uint256", indexed := false,
            components := [] },
          { name := "surplus", type := "uint256", internalType := "uint256", indexed := false,
            components := [] }],
        stateMutability := "nonpayable", anonymous := false },
      { type := "function", name := "rescueTokens",
        inputs := [
          { name := "token", type := "address", internalType := "address", indexed := false,
            components := [] },
          { name := "amount", type := "uint256", internalType := "uint256", indexed := false,
            components := [] }],
        outputs := [],
        stateMutability := "nonpayable", anonymous := false },
      { type := "function", name := "setExecutor",
        inputs := [
          { name := "_newExecutor", type := "address", internalType := "address", indexed := false,
            components := [] }],
        outputs := [],
        stateMutability := "nonpayable", anonymous := false },
      { type := "function", name := "setSwapTargets",
        inputs := [
          { name := "targets", type := "address[]", internalType := "address[]", indexed := false,
            components := [] },
          { name := "allowed", type := "bool[]", internalType := "bool[]", indexed := false,
            components := [] }],
        outputs := [],
        stateMutability := "nonpayable", anonymous := false },
      { type := "function", name := "setTreasury",
        inputs := [
          { name := "_newTreasury", type := "address", internalType := "address", indexed := false,
            components := [] }],
        outputs := [],
        stateMutability := "nonpayable", anonymous := false },
      { type := "event", name := "ExecutorUpdated",
        inputs := [
          { name := "oldExecutor", type := "address", internalType := "address", indexed := true,
            components := [] },
          { name := "newExecutor", type := "address", internalType := "address", indexed := true,
            components := [] }],
        outputs := [],
        stateMutability := "", anonymous := false },
      { type := "event", name := "IntentExecuted",
        inputs := [
          { name := "user", type := "address", internalType := "address", indexed := true,
            components := [] },
          { name := "inputToken", type := "address", internalType := "address", indexed := true,
            components := [] },
          { name := "outputToken", type := "address", internalType := "address", indexed := true,
            components := [] },
          { name := "inputAmt", type := "uint256", internalType := "uint256", indexed := false,
            components := [] },
          { name := "userAmtOut", type := "uint256", internalType := "uint256", indexed := false,
            components := [] },
          { name := "received", type := "uint256", internalType := "uint256", indexed := false,
            components := [] },
          { name := "surplus", type := "uint256", internalType := "uint256", indexed := false,
            components := [] }],
        outputs := [],
        stateMutability := "", anonymous := false },
      { type := "event", name := "SwapTargetsUpdated",
        inputs := [
          { name := "targets", type := "address[]", internalType := "address[]", indexed := false,
            components := [] },
          { name := "allowed", type := "bool[]", internalType := "bool[]", indexed := false,
            components := [] }],
        outputs := [],
        stateMutability := "", anonymous := false },
      { type := "event", name := "TreasuryUpdated",
        inputs := [
          { name := "oldTreasury", type := "address", internalType := "address", indexed := true,
            components := [] },
          { name := "newTreasury", type := "address", internalType := "address", indexed := true,
            components := [] }],
        outputs := [],
        stateMutability := "", anonymous := false },
      { type := "error", name := "ArrayLengthMismatch",
        inputs := [],
        outputs := [],
        stateMutability := "", anonymous := false },
      { type := "error", name := "BadCallTarget",
        inputs := [],
        outputs := [],
        stateMutability := "", anonymous := false },
      { type := "error", name := "BadExecutor",
        inputs := [],
        outputs := [],
        stateMutability := "", anonymous := false },
      { type := "error", name := "BadInputAmt",
        inputs := [],
        outputs := [],
        stateMutability := "", anonymous := false },
      { type := "error", name := "BadInputToken",
        inputs := [],
        outputs := [],
        stateMutability := "", anonymous := false },
      { type := "error", name := "BadNonce",
        inputs := [],
        outputs := [],
        stateMutability := "", anonymous := false },
      { type := "error", name := "BadOwner",
        inputs := [],
        outputs := [],
        stateMutability := "", anonymous := false },
      { type := "error", name := "BadRecipient",
        inputs := [],
        outputs := [],
        stateMutability := "", anonymous := false },
      { type := "error", name := "BadTreasury",
        inputs := [],
        outputs := [],
        stateMutability := "", anonymous := false },
      { type := "error", name := "BadUserAmtOut",
        inputs := [],
        outputs := [],
        stateMutability := "", anonymous := false },
      { type := "error", name := "ExpectedETHInput",
        inputs := [],
        outputs := [],
        stateMutability := "", anonymous := false },
      { type := "error", name := "InsufficientOut",
        inputs := [
          { name := "received", type := "uint256", internalType := "uint256", indexed := false,
            components := [] },
          { name := "userAmtOut", type := "uint256", internalType := "uint256", indexed := false,
            components := [] }],
        outputs := [],
        stateMutability := "", anonymous := false },
      { type := "error", name := "IntentExpired",
        inputs := [],
        outputs := [],
        stateMutability := "", anonymous := false },
      { type := "error", name := "InvalidETHAmount",
        inputs := [],
        outputs := [],
        stateMutability := "", anonymous := false },
      { type := "error", name := "InvalidPermit2",
        inputs := [],
        outputs := [],
        stateMutability := "", anonymous := false },
      { type := "error", name := "InvalidWETH",
        inputs := [],
        outputs := [],
        stateMutability := "", anonymous := false },
      { type := "error", name := "UnauthorizedCaller",
        inputs := [],
        outputs := [],
        stateMutability := "", anonymous := false },
      { type := "error", name := "UnauthorizedExecutor",
        inputs := [],
        outputs := [],
        stateMutability := "", anonymous := false },
      { type := "error", name := "UnauthorizedSwapTarget",
        inputs := [],
        outputs := [],
        stateMutability := "", anonymous := false }] }

/-- The variable `Ifastsettlementv3ABI`. -/
def Ifastsettlementv3ABI : List AbiEntry := Ifastsettlementv3MetaData.ABI

/-! ## Reading the ABI document and the Go field lists -/

/-- Names of the entries of the given `type` in an ABI document, in document order. -/
def abiNames (type : String) (abi : List AbiEntry) : List String :=
  (abi.filter (fun e => e.type = type)).map (fun e => e.name)

/-- Inputs of the first entry of the given `type` and `name` in an ABI document, empty
when there is none. -/
def abiInputs (type name : String) (abi : List AbiEntry) : List AbiParam :=
  match abi.find? (fun e => e.type = type ∧ e.name = name) with
  | some e => e.inputs
  | none => []

/-- Components of the tuple input `param` of the function `fn` in an ABI document, empty
when there is none. -/
def abiComponents (fn param : String) (abi : List AbiEntry) : List AbiField :=
  match (abiInputs "function" fn abi).find? (fun p => p.name = param) with
  | some p => p.components
  | none => []

/-- The Go types of the fields of the argument structs and event records:
`common.Address`, `*big.Int`, `[]byte`, `[]common.Address`, `[]bool`, `types.Log`. -/
inductive GoType where
  | Address
  | BigInt
  | Bytes
  | AddressSlice
  | BoolSlice
  | Log
deriving DecidableEq, Repr

/-- The Go type that stands for an ABI type in the binding. -/
def GoType.ofAbi : String → Option GoType
  | "address" => some .Address
  | "uint256" => some .BigInt
  | "bytes" => some .Bytes
  | "address[]" => some .AddressSlice
  | "bool[]" => some .BoolSlice
  | _ => none

/-- The Go field name that stands for an ABI name: the first letter in upper case. -/
def goFieldName (abiName : String) : String :=
  abiName.capitalize

/-- A value of one of the field types. -/
inductive FieldValue where
  | Address (a : Address)
  | BigInt (n : Option Int)
  | Bytes (b : Bytes)
  | AddressSlice (xs : List Address)
  | BoolSlice (xs : List Bool)
  | Log (l : Log)
deriving DecidableEq, Repr

/-- Type of a field value. -/
def FieldValue.type : FieldValue → GoType
  | .Address _ => .Address
  | .BigInt _ => .BigInt
  | .Bytes _ => .Bytes
  | .AddressSlice _ => .AddressSlice
  | .BoolSlice _ => .BoolSlice
  | .Log _ => .Log

/-- The fields of the Go struct `IFastSettlementV3Intent`, in declaration order. -/
def IFastSettlementV3Intent.fields (x : IFastSettlementV3Intent) :
    List (String × FieldValue) :=
  [("User", .Address x.User), ("InputToken", .Address x.InputToken),
   ("OutputToken", .Address x.OutputToken), ("InputAmt", .BigInt x.InputAmt),
   ("UserAmtOut", .BigInt x.UserAmtOut), ("Recipient", .Address x.Recipient),
   ("Deadline", .BigInt x.Deadline), ("Nonce", .BigInt x.Nonce)]

/-- The fields of the Go struct `IFastSettlementV3SwapCall`, in declaration order. -/
def IFastSettlementV3SwapCall.fields (x : IFastSettlementV3SwapCall) :
    List (String × FieldValue) :=
  [("To", .Address x.To), ("Value", .BigInt x.Value), ("Data", .Bytes x.Data)]

/-- The fields of the Go struct `Ifastsettlementv3ExecutorUpdated`, in declaration order. -/
def Ifastsettlementv3ExecutorUpdated.fields (x : Ifastsettlementv3ExecutorUpdated) :
    List (String × FieldValue) :=
  [("OldExecutor", .Address x.OldExecutor), ("NewExecutor", .Address x.NewExecutor),
   ("Raw", .Log x.Raw)]

/-- The fields of the Go struct `Ifastsettlementv3IntentExecuted`, in declaration order. -/
def Ifastsettlementv3IntentExecuted.fields (x : Ifastsettlementv3IntentExecuted) :
    List (String × FieldValue) :=
  [("User", .Address x.User), ("InputToken", .Address x.InputToken),
   ("OutputToken", .Address x.OutputToken), ("InputAmt", .BigInt x.InputAmt),
   ("UserAmtOut", .BigInt x.UserAmtOut), ("Received", .BigInt x.Received),
   ("Surplus", .BigInt x.Surplus), ("Raw", .Log x.Raw)]

/-- The fields of the Go struct `Ifastsettlementv3SwapTargetsUpdated`, in declaration
order. -/
def Ifastsettlementv3SwapTargetsUpdated.fields (x : Ifastsettlementv3SwapTargetsUpdated) :
    List (String × FieldValue) :=
  [("Targets", .AddressSlice x.Targets), ("Allowed", .BoolSlice x.Allowed),
   ("Raw", .Log x.Raw)]

/-- The fields of the Go struct `Ifastsettlementv3TreasuryUpdated`, in declaration order. -/
def Ifastsettlementv3TreasuryUpdated.fields (x : Ifastsettlementv3TreasuryUpdated) :
    List (String × FieldValue) :=
  [("OldTreasury", .Address x.OldTreasury), ("NewTreasury", .Address x.NewTreasury),
   ("Raw", .Log x.Raw)]

/-- The field list an ABI parameter list calls for: one field per parameter, in order,
named and typed by the two correspondences above. -/
def goFieldsOfAbi (names : List (String × String)) : List (String × Option GoType) :=
  names.map (fun p => (goFieldName p.1, GoType.ofAbi p.2))

/-! ## The bound contract (go-ethereum, behaviour taken as a parameter) -/

/-- Go `*bind.BoundContract`: the methods of the library object the binding calls.
`UnpackLog out event log` writes into the record `out` points to and returns an error;
here it returns the record as it left it together with the error. -/
structure BoundContract where
  UnpackLog : (k : EventKind) → Record k → String → Log → Record k × Option GoError
  FilterLogs : Option FilterOpts → String → List (List Any) →
    Except GoError (Chan Log × Subscription)
  WatchLogs : Option WatchOpts → String → List (List Any) →
    Except GoError (Chan Log × Subscription)
  Transact : Option TransactOpts → String → List Any → Option Transaction × Option GoError

/-! ## Iterators -/

/-- The iterator struct, one Go type per event, all with the same fields. -/
structure Iterator (k : EventKind) where
  Event : Option (Record k)
  contract : BoundContract
  event : String
  logs : Chan Log
  sub : Subscription
  done : Bool
  fail : Option GoError

/-- Go type `Ifastsettlementv3ExecutorUpdatedIterator`. -/
abbrev Ifastsettlementv3ExecutorUpdatedIterator := Iterator .ExecutorUpdated
/-- Go type `Ifastsettlementv3IntentExecutedIterator`. -/
abbrev Ifastsettlementv3IntentExecutedIterator := Iterator .IntentExecuted
/-- Go type `Ifastsettlementv3SwapTargetsUpdatedIterator`. -/
abbrev Ifastsettlementv3SwapTargetsUpdatedIterator := Iterator .SwapTargetsUpdated
/-- Go type `Ifastsettlementv3TreasuryUpdatedIterator`. -/
abbrev Ifastsettlementv3TreasuryUpdatedIterator := Iterator .TreasuryUpdated

/-- Which case a two-way `select` takes when both are ready. -/
inductive SelectCase where
  | logs
  | err
deriving DecidableEq, Repr

/-- Two-way blocking `select`: a ready case is taken, `pick` decides when both are ready,
and `none` means that no case is ready (the goroutine waits). -/
def select2 {α β : Type} (pick : SelectCase) (a : Option α) (b : Option β) : Option (α ⊕ β) :=
  match a, b with
  | some x, some y =>
      match pick with
      | .logs => some (.inl x)
      | .err => some (.inr y)
  | some x, none => some (.inl x)
  | none, some y => some (.inr y)
  | none, none => none

/-- Body of `case log := <-it.logs:` (the same in both selects of `Next`): allocate the
record, unpack into it, record the error or set `Raw`. -/
def Iterator.onLog {k : EventKind} (it : Iterator k) (log : Log) : Bool × Iterator k :=
  let it := { it with Event := some (Record.new k) }
  match it.contract.UnpackLog k (Record.new k) it.event log with
  | (out, some err) => (false, { it with Event := some out, fail := some err })
  | (out, none) => (true, { it with Event := some (Record.setRaw out log) })

/-- Method `Next` of each iterator. The result is `none` when the call waits because no
select case is ready; otherwise the returned boolean and the iterator afterwards. -/
def Iterator.Next {k : EventKind} (pick : SelectCase) (it : Iterator k) :
    Option (Bool × Iterator k) :=
  if it.fail ≠ none then
    some (false, it)
  else if it.done = true then
    match it.logs.recv Log.zero with
    | some (log, rest) => some (Iterator.onLog { it with logs := rest } log)
    | none => some (false, it)
  else
    match select2 pick (it.logs.recv Log.zero) (it.sub.errc.recv none) with
    | some (.inl (log, rest)) => some (Iterator.onLog { it with logs := rest } log)
    | some (.inr (err, rest)) =>
        Iterator.Next pick
          { it with sub := { it.sub with errc := rest }, done := true, fail := err }
    | none => none
termination_by (if it.done = true then 0 else 1)
decreasing_by simp [*]

/-- Method `Error` of each iterator. -/
def Iterator.Error {k : EventKind} (it : Iterator k) : Option GoError :=
  it.fail

/-- Method `Close` of each iterator: unsubscribe, return nil. -/
def Iterator.Close {k : EventKind} (impl : SubscriptionImpl) (it : Iterator k) :
    Option GoError × Iterator k :=
  (none, { it with sub := it.sub.Unsubscribe impl })


/-- Method `Next` run with a counter: the number of calls `Next` makes to itself, and the
result of `Next`. The body is that of `Next`; only the self-call adds one. -/
def Iterator.NextTraced {k : EventKind} (pick : SelectCase) (it : Iterator k) :
    Nat × Option (Bool × Iterator k) :=
  if it.fail ≠ none then
    (0, some (false, it))
  else if it.done = true then
    match it.logs.recv Log.zero with
    | some (log, rest) => (0, some (Iterator.onLog { it with logs := rest } log))
    | none => (0, some (false, it))
  else
    match select2 pick (it.logs.recv Log.zero) (it.sub.errc.recv none) with
    | some (.inl (log, rest)) => (0, some (Iterator.onLog { it with logs := rest } log))
    | some (.inr (err, rest)) =>
        ((Iterator.NextTraced pick
            { it with sub := { it.sub with errc := rest }, done := true, fail := err }).1 + 1,
          (Iterator.NextTraced pick
            { it with sub := { it.sub with errc := rest }, done := true, fail := err }).2)
    | none => (0, none)
termination_by (if it.done = true then 0 else 1)
decreasing_by all_goals simp [*]

/-- A caller that invokes `Next` once per entry of `picks` (the scheduler choice of that
call): the boolean returned by each call with the iterator after it, or `none` as soon as
a call waits. -/
def Iterator.NextSeq {k : EventKind} :
    List SelectCase → Iterator k → Option (List (Bool × Iterator k))
  | [], _ => some []
  | pick :: picks, it =>
      match it.Next pick with
      | none => none
      | some (b, it1) => (Iterator.NextSeq picks it1).map (fun rs => (b, it1) :: rs)

/-! ## Parsers -/

/-- Method `ParseExecutorUpdated` of the filterer: the pair `(event, err)`. -/
def ParseExecutorUpdated (contract : BoundContract) (log : Log) :
    Option Ifastsettlementv3ExecutorUpdated × Option GoError :=
  let event := Record.new .ExecutorUpdated
  match contract.UnpackLog .ExecutorUpdated event "ExecutorUpdated" log with
  | (_, some err) => (none, some err)
  | (event, none) => (some { event with Raw := log }, none)

/-- Method `ParseIntentExecuted` of the filterer: the pair `(event, err)`. -/
def ParseIntentExecuted (contract : BoundContract) (log : Log) :
    Option Ifastsettlementv3IntentExecuted × Option GoError :=
  let event := Record.new .IntentExecuted
  match contract.UnpackLog .IntentExecuted event "IntentExecuted" log with
  | (_, some err) => (none, some err)
  | (event, none) => (some { event with Raw := log }, none)

/-- Method `ParseSwapTargetsUpdated` of the filterer: the pair `(event, err)`. -/
def ParseSwapTargetsUpdated (contract : BoundContract) (log : Log) :
    Option Ifastsettlementv3SwapTargetsUpdated × Option GoError :=
  let event := Record.new .SwapTargetsUpdated
  match contract.UnpackLog .SwapTargetsUpdated event "SwapTargetsUpdated" log with
  | (_, some err) => (none, some err)
  | (event, none) => (some { event with Raw := log }, none)

/-- Method `ParseTreasuryUpdated` of the filterer: the pair `(event, err)`. -/
def ParseTreasuryUpdated (contract : BoundContract) (log : Log) :
    Option Ifastsettlementv3TreasuryUpdated × Option GoError :=
  let event := Record.new .TreasuryUpdated
  match contract.UnpackLog .TreasuryUpdated event "TreasuryUpdated" log with
  | (_, some err) => (none, some err)
  | (event, none) => (some { event with Raw := log }, none)

/-- The `ParseX` method of each event. -/
def Parse : (k : EventKind) → BoundContract → Log → Option (Record k) × Option GoError
  | .ExecutorUpdated => ParseExecutorUpdated
  | .IntentExecuted => ParseIntentExecuted
  | .SwapTargetsUpdated => ParseSwapTargetsUpdated
  | .TreasuryUpdated => ParseTreasuryUpdated

/-! ## Filters -/

/-- One invocation of `contract.FilterLogs(opts, name, query...)` as the backend sees it. -/
structure FilterLogsCall where
  opts : Option FilterOpts
  name : String
  query : List (List Any)
deriving DecidableEq, Repr

/-- Result of a `FilterX` method: the returned pair `(iterator, err)` and the backend
invocations made while computing it. -/
structure FilterResult (k : EventKind) where
  it : Option (Iterator k)
  err : Option GoError
  calls : List FilterLogsCall

/-- Tail shared by the four `FilterX` methods, from the `FilterLogs` call on: the call,
the error check and the iterator literal. -/
def filterLogsInto (k : EventKind) (contract : BoundContract) (opts : Option FilterOpts)
    (name : String) (query : List (List Any)) : FilterResult k :=
  match contract.FilterLogs opts name query with
  | .error err => { it := none, err := some err, calls := [⟨opts, name, query⟩] }
  | .ok (logs, sub) =>
      { it := some { Event := none, contract := contract, event := name, logs := logs,
                     sub := sub, done := false, fail := none },
        err := none, calls := [⟨opts, name, query⟩] }

/-- The loop `for _, item := range items { rule = append(rule, item) }` starting from the
nil slice. -/
def appendRule (items : List Address) : List Any :=
  items.foldl (fun rule item => rule ++ [Any.address item]) []

/-- Method `FilterExecutorUpdated` of the filterer. -/
def FilterExecutorUpdated (contract : BoundContract) (opts : Option FilterOpts)
    (oldExecutor newExecutor : List Address) : FilterResult .ExecutorUpdated :=
  let oldExecutorRule := appendRule oldExecutor
  let newExecutorRule := appendRule newExecutor
  filterLogsInto .ExecutorUpdated contract opts "ExecutorUpdated"
    [oldExecutorRule, newExecutorRule]

/-- Method `FilterIntentExecuted` of the filterer. -/
def FilterIntentExecuted (contract : BoundContract) (opts : Option FilterOpts)
    (user inputToken outputToken : List Address) : FilterResult .IntentExecuted :=
  let userRule := appendRule user
  let inputTokenRule := appendRule inputToken
  let outputTokenRule := appendRule outputToken
  filterLogsInto .IntentExecuted contract opts "IntentExecuted"
    [userRule, inputTokenRule, outputTokenRule]

/-- Method `FilterSwapTargetsUpdated` of the filterer. -/
def FilterSwapTargetsUpdated (contract : BoundContract) (opts : Option FilterOpts) :
    FilterResult .SwapTargetsUpdated :=
  filterLogsInto .SwapTargetsUpdated contract opts "SwapTargetsUpdated" []

/-- Method `FilterTreasuryUpdated` of the filterer. -/
def FilterTreasuryUpdated (contract : BoundContract) (opts : Option FilterOpts)
    (oldTreasury newTreasury : List Address) : FilterResult .TreasuryUpdated :=
  let oldTreasuryRule := appendRule oldTreasury
  let newTreasuryRule := appendRule newTreasury
  filterLogsInto .TreasuryUpdated contract opts "TreasuryUpdated"
    [oldTreasuryRule, newTreasuryRule]

/-! ## Watchers -/

/-- One invocation of `contract.WatchLogs(opts, name, query...)` as the backend sees it. -/
structure WatchLogsCall where
  opts : Option WatchOpts
  name : String
  query : List (List Any)
deriving DecidableEq, Repr

/-- Where the function handed to `event.NewSubscription` stands: at the outer select of
the loop, at the inner select holding the decoded `event`, or returned with its result
(the deferred `sub.Unsubscribe()` has then run). -/
inductive WatchPc (k : EventKind) where
  | outer
  | inner (event : Record k)
  | returned (err : Option GoError)

/-- The task a `WatchX` method starts: the variables its closure captures (the bound
contract, the event name literal, the log channel and the subscription returned by
`WatchLogs`), the records it has sent on `sink` so far, oldest first, and where it
stands. -/
structure WatchTask (k : EventKind) where
  contract : BoundContract
  name : String
  logs : Chan Log
  sub : Subscription
  sink : List (Record k)
  pc : WatchPc k

/-- A case of the two selects of the watch loop: `<-logs` (outer only), `sink <- event`
(inner only), `<-sub.Err()` and `<-quit` (both). -/
inductive WatchCase where
  | logs
  | sink
  | err
  | quit
deriving DecidableEq, Repr

/-- The statement `return err` of the task: the deferred `sub.Unsubscribe()` runs and the
function returns `err`. -/
def WatchTask.ret {k : EventKind} (impl : SubscriptionImpl) (t : WatchTask k)
    (err : Option GoError) : WatchTask k :=
  { t with sub := t.sub.Unsubscribe impl, pc := .returned err }

/-- One select of the task resolved to the case `c`, up to the next select or the return.
The result is `none` when `c` cannot be taken: the task has returned, `c` is not a case of
the select the task stands at, or the channel of `c` has nothing to receive. The cases
`<-quit` and `sink <- event` depend on the consumer alone and can always be taken. -/
def WatchTask.step {k : EventKind} (impl : SubscriptionImpl) (t : WatchTask k)
    (c : WatchCase) : Option (WatchTask k) :=
  match t.pc with
  | .returned _ => none
  | .outer =>
      match c with
      | .logs =>
          match t.logs.recv Log.zero with
          | none => none
          | some (log, rest) =>
              let event := Record.new k
              match t.contract.UnpackLog k event t.name log with
              | (_, some err) => some (WatchTask.ret impl { t with logs := rest } (some err))
              | (event, none) =>
                  some { t with logs := rest, pc := .inner (Record.setRaw event log) }
      | .err =>
          match t.sub.errc.recv none with
          | none => none
          | some (err, rest) =>
              some (WatchTask.ret impl { t with sub := { t.sub with errc := rest } } err)
      | .quit => some (WatchTask.ret impl t none)
      | .sink => none
  | .inner event =>
      match c with
      | .sink => some { t with sink := t.sink ++ [event], pc := .outer }
      | .err =>
          match t.sub.errc.recv none with
          | none => none
          | some (err, rest) =>
              some (WatchTask.ret impl { t with sub := { t.sub with errc := rest } } err)
      | .quit => some (WatchTask.ret impl t none)
      | .logs => none

/-- A run of the task: its selects resolved to the cases of `cs`, one after the other. The
result is `none` when one of them cannot be taken. -/
def WatchTask.run {k : EventKind} (impl : SubscriptionImpl) :
    List WatchCase → WatchTask k → Option (WatchTask k)
  | [], t => some t
  | c :: cs, t =>
      match t.step impl c with
      | none => none
      | some t1 => WatchTask.run impl cs t1

/-- Whether the task has returned. -/
def WatchPc.isReturned {k : EventKind} : WatchPc k → Bool
  | .returned _ => true
  | _ => false

/-- The record the watch loop makes of a log that decodes: what `UnpackLog` wrote, with
`Raw` set to the log. -/
def WatchTask.decoded {k : EventKind} (t : WatchTask k) (log : Log) : Record k :=
  Record.setRaw (t.contract.UnpackLog k (Record.new k) t.name log).1 log

/-- Invariant of a run of the task `t0` over the incoming logs `ls`, with `n` logs
received so far: the channel holds the rest of `ls`; at the outer select the `n` logs
have all been sent on, decoded and in order; at the inner select all but the last have
been, and the last is the record held; after the return either holds. -/
def WatchTask.Inv {k : EventKind} (t0 : WatchTask k) (ls : List Log) (n : Nat)
    (t : WatchTask k) : Prop :=
  n ≤ ls.length ∧ t.logs = ⟨ls.drop n, false⟩ ∧ t.contract = t0.contract ∧
    t.name = t0.name ∧
    match t.pc with
    | .outer => t.sink = (ls.take n).map t0.decoded
    | .inner event =>
        ∃ l, ls.take n = ls.take (n - 1) ++ [l] ∧ event = t0.decoded l ∧
          t.sink = (ls.take (n - 1)).map t0.decoded
    | .returned _ =>
        t.sink = (ls.take n).map t0.decoded ∨
          (0 < n ∧ t.sink = (ls.take (n - 1)).map t0.decoded)

/-- Result of a `WatchX` method: the returned pair `(subscription, err)`, the subscription
being the task it runs, and the backend invocations made while computing it. -/
structure WatchResult (k : EventKind) where
  task : Option (WatchTask k)
  err : Option GoError
  calls : List WatchLogsCall

/-- Tail shared by the four `WatchX` methods, from the `WatchLogs` call on: the call, the
error check and the subscription started on the task. -/
def watchLogsInto (k : EventKind) (contract : BoundContract) (opts : Option WatchOpts)
    (name : String) (query : List (List Any)) : WatchResult k :=
  match contract.WatchLogs opts name query with
  | .error err => { task := none, err := some err, calls := [⟨opts, name, query⟩] }
  | .ok (logs, sub) =>
      { task := some { contract := contract, name := name, logs := logs, sub := sub,
                       sink := [], pc := .outer },
        err := none, calls := [⟨opts, name, query⟩] }

/-- Method `WatchExecutorUpdated` of the filterer. -/
def WatchExecutorUpdated (contract : BoundContract) (opts : Option WatchOpts)
    (oldExecutor newExecutor : List Address) : WatchResult .ExecutorUpdated :=
  let oldExecutorRule := appendRule oldExecutor
  let newExecutorRule := appendRule newExecutor
  watchLogsInto .ExecutorUpdated contract opts "ExecutorUpdated"
    [oldExecutorRule, newExecutorRule]

/-- Method `WatchIntentExecuted` of the filterer. -/
def WatchIntentExecuted (contract : BoundContract) (opts : Option WatchOpts)
    (user inputToken outputToken : List Address) : WatchResult .IntentExecuted :=
  let userRule := appendRule user
  let inputTokenRule := appendRule inputToken
  let outputTokenRule := appendRule outputToken
  watchLogsInto .IntentExecuted contract opts "IntentExecuted"
    [userRule, inputTokenRule, outputTokenRule]

/-- Method `WatchSwapTargetsUpdated` of the filterer. -/
def WatchSwapTargetsUpdated (contract : BoundContract) (opts : Option WatchOpts) :
    WatchResult .SwapTargetsUpdated :=
  watchLogsInto .SwapTargetsUpdated contract opts "SwapTargetsUpdated" []

/-- Method `WatchTreasuryUpdated` of the filterer. -/
def WatchTreasuryUpdated (contract : BoundContract) (opts : Option WatchOpts)
    (oldTreasury newTreasury : List Address) : WatchResult .TreasuryUpdated :=
  let oldTreasuryRule := appendRule oldTreasury
  let newTreasuryRule := appendRule newTreasury
  watchLogsInto .TreasuryUpdated contract opts "TreasuryUpdated"
    [oldTreasuryRule, newTreasuryRule]

/-! ## Contract facets, sessions and constructors -/

/-- Go `abi.ABI`, the parsed schema. -/
structure ABI where
  Methods : List AbiEntry
  Events : List AbiEntry
  Errors : List AbiEntry
deriving DecidableEq, Repr

/-- A chain backend handle: a value of the interfaces `bind.ContractBackend`,
`bind.ContractCaller`, `bind.ContractTransactor` or `bind.ContractFilterer`. As an
interface value it may be nil, so arguments of these types are `Option Backend`. -/
structure Backend where
  id : Nat
deriving DecidableEq, Repr

/-- The go-ethereum functions the constructors call: `(*bind.MetaData).GetAbi` and
`bind.NewBoundContract`. The binding does not define them. -/
structure BindLibrary where
  GetAbi : MetaData → Except GoError ABI
  NewBoundContract : Address → ABI → Option Backend → Option Backend → Option Backend →
    BoundContract

/-- Go struct `Ifastsettlementv3Caller`. -/
structure Ifastsettlementv3Caller where
  contract : BoundContract

/-- Go struct `Ifastsettlementv3Transactor`. -/
structure Ifastsettlementv3Transactor where
  contract : BoundContract

/-- Go struct `Ifastsettlementv3Filterer`. -/
structure Ifastsettlementv3Filterer where
  contract : BoundContract

set_option linter.dupNamespace false

/-- Go struct `Ifastsettlementv3`, which embeds the three facets. -/
structure Ifastsettlementv3 where
  Ifastsettlementv3Caller : Ifastsettlementv3Caller
  Ifastsettlementv3Transactor : Ifastsettlementv3Transactor
  Ifastsettlementv3Filterer : Ifastsettlementv3Filterer

/-- Go struct `Ifastsettlementv3Session`. -/
structure Ifastsettlementv3Session where
  Contract : Ifastsettlementv3
  CallOpts : CallOpts
  TransactOpts : TransactOpts

/-- Go struct `Ifastsettlementv3CallerSession`. -/
structure Ifastsettlementv3CallerSession where
  Contract : Ifastsettlementv3Caller
  CallOpts : CallOpts

/-- Go struct `Ifastsettlementv3TransactorSession`. -/
structure Ifastsettlementv3TransactorSession where
  Contract : Ifastsettlementv3Transactor
  TransactOpts : TransactOpts

/-- Function `bindIfastsettlementv3`. -/
def bindIfastsettlementv3 (lib : BindLibrary) (address : Address)
    (caller transactor filterer : Option Backend) : Except GoError BoundContract :=
  match lib.GetAbi Ifastsettlementv3MetaData with
  | .error err => .error err
  | .ok parsed => .ok (lib.NewBoundContract address parsed caller transactor filterer)

/-- Function `NewIfastsettlementv3`: the pair `(instance, err)`. -/
def NewIfastsettlementv3 (lib : BindLibrary) (address : Address) (backend : Option Backend) :
    Option Ifastsettlementv3 × Option GoError :=
  match bindIfastsettlementv3 lib address backend backend backend with
  | .error err => (none, some err)
  | .ok contract =>
      (some { Ifastsettlementv3Caller := { contract := contract },
              Ifastsettlementv3Transactor := { contract := contract },
              Ifastsettlementv3Filterer := { contract := contract } }, none)

/-- Function `NewIfastsettlementv3Caller`: the pair `(instance, err)`. -/
def NewIfastsettlementv3Caller (lib : BindLibrary) (address : Address)
    (caller : Option Backend) : Option Ifastsettlementv3Caller × Option GoError :=
  match bindIfastsettlementv3 lib address caller none none with
  | .error err => (none, some err)
  | .ok contract => (some { contract := contract }, none)

/-- Function `NewIfastsettlementv3Transactor`: the pair `(instance, err)`. -/
def NewIfastsettlementv3Transactor (lib : BindLibrary) (address : Address)
    (transactor : Option Backend) : Option Ifastsettlementv3Transactor × Option GoError :=
  match bindIfastsettlementv3 lib address none transactor none with
  | .error err => (none, some err)
  | .ok contract => (some { contract := contract }, none)

/-- Function `NewIfastsettlementv3Filterer`: the pair `(instance, err)`. -/
def NewIfastsettlementv3Filterer (lib : BindLibrary) (address : Address)
    (filterer : Option Backend) : Option Ifastsettlementv3Filterer × Option GoError :=
  match bindIfastsettlementv3 lib address none none filterer with
  | .error err => (none, some err)
  | .ok contract => (some { contract := contract }, none)

/-! ## Transactor wrappers -/

/-- One invocation of `contract.Transact(opts, method, params...)` as the bound contract
sees it. -/
structure TransactCall where
  opts : Option TransactOpts
  method : String
  params : List Any
deriving DecidableEq, Repr

/-- Result of a transactor wrapper: the returned pair `(tx, err)` and the `Transact`
invocations made while computing it. -/
structure TransactResult where
  tx : Option Transaction
  err : Option GoError
  calls : List TransactCall
deriving DecidableEq, Repr

/-- The expression `contract.Transact(opts, method, params...)` returned as is, with the
invocation recorded. -/
def BoundContract.transact (contract : BoundContract) (opts : Option TransactOpts)
    (method : String) (params : List Any) : TransactResult :=
  { tx := (contract.Transact opts method params).1,
    err := (contract.Transact opts method params).2,
    calls := [⟨opts, method, params⟩] }

/-- Method `ExecuteWithETH` of the transactor. -/
def Ifastsettlementv3Transactor.ExecuteWithETH (t : Ifastsettlementv3Transactor)
    (opts : Option TransactOpts) (intent : IFastSettlementV3Intent)
    (swapData : IFastSettlementV3SwapCall) : TransactResult :=
  t.contract.transact opts "executeWithETH" [Any.intent intent, Any.swapCall swapData]

/-- Method `ExecuteWithPermit` of the transactor. -/
def Ifastsettlementv3Transactor.ExecuteWithPermit (t : Ifastsettlementv3Transactor)
    (opts : Option TransactOpts) (intent : IFastSettlementV3Intent) (signature : Bytes)
    (swapData : IFastSettlementV3SwapCall) : TransactResult :=
  t.contract.transact opts "executeWithPermit"
    [Any.intent intent, Any.bytes signature, Any.swapCall swapData]

/-- Method `RescueTokens` of the transactor. -/
def Ifastsettlementv3Transactor.RescueTokens (t : Ifastsettlementv3Transactor)
    (opts : Option TransactOpts) (token : Address) (amount : Option Int) : TransactResult :=
  t.contract.transact opts "rescueTokens" [Any.address token, Any.bigInt amount]

/-- Method `SetExecutor` of the transactor. -/
def Ifastsettlementv3Transactor.SetExecutor (t : Ifastsettlementv3Transactor)
    (opts : Option TransactOpts) (_newExecutor : Address) : TransactResult :=
  t.contract.transact opts "setExecutor" [Any.address _newExecutor]

/-- Method `SetSwapTargets` of the transactor. -/
def Ifastsettlementv3Transactor.SetSwapTargets (t : Ifastsettlementv3Transactor)
    (opts : Option TransactOpts) (targets : List Address) (allowed : List Bool) :
    TransactResult :=
  t.contract.transact opts "setSwapTargets" [Any.addressSlice targets, Any.boolSlice allowed]

/-- Method `SetTreasury` of the transactor. -/
def Ifastsettlementv3Transactor.SetTreasury (t : Ifastsettlementv3Transactor)
    (opts : Option TransactOpts) (_newTreasury : Address) : TransactResult :=
  t.contract.transact opts "setTreasury" [Any.address _newTreasury]

/-! ## Session wrappers -/

/-- Method `ExecuteWithETH` of the session. -/
def Ifastsettlementv3Session.ExecuteWithETH (s : Ifastsettlementv3Session)
    (intent : IFastSettlementV3Intent) (swapData : IFastSettlementV3SwapCall) :
    TransactResult :=
  s.Contract.Ifastsettlementv3Transactor.ExecuteWithETH (some s.TransactOpts) intent swapData

/-- Method `ExecuteWithETH` of the transactor session. -/
def Ifastsettlementv3TransactorSession.ExecuteWithETH (s : Ifastsettlementv3TransactorSession)
    (intent : IFastSettlementV3Intent) (swapData : IFastSettlementV3SwapCall) :
    TransactResult :=
  s.Contract.ExecuteWithETH (some s.TransactOpts) intent swapData

/-- Method `ExecuteWithPermit` of the session. -/
def Ifastsettlementv3Session.ExecuteWithPermit (s : Ifastsettlementv3Session)
    (intent : IFastSettlementV3Intent) (signature : Bytes)
    (swapData : IFastSettlementV3SwapCall) : TransactResult :=
  s.Contract.Ifastsettlementv3Transactor.ExecuteWithPermit (some s.TransactOpts) intent
    signature swapData

/-- Method `ExecuteWithPermit` of the transactor session. -/
def Ifastsettlementv3TransactorSession.ExecuteWithPermit
    (s : Ifastsettlementv3TransactorSession) (intent : IFastSettlementV3Intent)
    (signature : Bytes) (swapData : IFastSettlementV3SwapCall) : TransactResult :=
  s.Contract.ExecuteWithPermit (some s.TransactOpts) intent signature swapData

/-- Method `RescueTokens` of the session. -/
def Ifastsettlementv3Session.RescueTokens (s : Ifastsettlementv3Session) (token : Address)
    (amount : Option Int) : TransactResult :=
  s.Contract.Ifastsettlementv3Transactor.RescueTokens (some s.TransactOpts) token amount

/-- Method `RescueTokens` of the transactor session. -/
def Ifastsettlementv3TransactorSession.RescueTokens (s : Ifastsettlementv3TransactorSession)
    (token : Address) (amount : Option Int) : TransactResult :=
  s.Contract.RescueTokens (some s.TransactOpts) token amount

/-- Method `SetExecutor` of the session. -/
def Ifastsettlementv3Session.SetExecutor (s : Ifastsettlementv3Session)
    (_newExecutor : Address) : TransactResult :=
  s.Contract.Ifastsettlementv3Transactor.SetExecutor (some s.TransactOpts) _newExecutor

/-- Method `SetExecutor` of the transactor session. -/
def Ifastsettlementv3TransactorSession.SetExecutor (s : Ifastsettlementv3TransactorSession)
    (_newExecutor : Address) : TransactResult :=
  s.Contract.SetExecutor (some s.TransactOpts) _newExecutor

/-- Method `SetSwapTargets` of the session. -/
def Ifastsettlementv3Session.SetSwapTargets (s : Ifastsettlementv3Session)
    (targets : List Address) (allowed : List Bool) : TransactResult :=
  s.Contract.Ifastsettlementv3Transactor.SetSwapTargets (some s.TransactOpts) targets allowed

/-- Method `SetSwapTargets` of the transactor session. -/
def Ifastsettlementv3TransactorSession.SetSwapTargets
    (s : Ifastsettlementv3TransactorSession) (targets : List Address)
    (allowed : List Bool) : TransactResult :=
  s.Contract.SetSwapTargets (some s.TransactOpts) targets allowed

/-- Method `SetTreasury` of the session. -/
def Ifastsettlementv3Session.SetTreasury (s : Ifastsettlementv3Session)
    (_newTreasury : Address) : TransactResult :=
  s.Contract.Ifastsettlementv3Transactor.SetTreasury (some s.TransactOpts) _newTreasury

/-- Method `SetTreasury` of the transactor session. -/
def Ifastsettlementv3TransactorSession.SetTreasury (s : Ifastsettlementv3TransactorSession)
    (_newTreasury : Address) : TransactResult :=
  s.Contract.SetTreasury (some s.TransactOpts) _newTreasury

/-! ## Low-level wrappers -/

/-- Go struct `Ifastsettlementv3Raw`. -/
structure Ifastsettlementv3Raw where
  Contract : Ifastsettlementv3

/-- Go struct `Ifastsettlementv3TransactorRaw`. -/
structure Ifastsettlementv3TransactorRaw where
  Contract : Ifastsettlementv3Transactor

/-- Method `Transact` of `Ifastsettlementv3Raw`: the method name and the parameters are
those of the caller. -/
def Ifastsettlementv3Raw.Transact (r : Ifastsettlementv3Raw) (opts : Option TransactOpts)
    (method : String) (params : List Any) : TransactResult :=
  r.Contract.Ifastsettlementv3Transactor.contract.transact opts method params

/-- Method `Transact` of `Ifastsettlementv3TransactorRaw`: the method name and the
parameters are those of the caller. -/
def Ifastsettlementv3TransactorRaw.Transact (r : Ifastsettlementv3TransactorRaw)
    (opts : Option TransactOpts) (method : String) (params : List Any) : TransactResult :=
  r.Contract.contract.transact opts method params

/-! ## A concrete backend for evaluating the definitions -/

/-- Sample `UnpackLog`, in the order go-ethereum works: signature topic first, then the
data section into the non-indexed fields, then the remaining topics into the indexed
fields. A log with too few topics fails after the data fields have been written. -/
def sampleUnpackLog : (k : EventKind) → Record k → String → Log → Record k × Option GoError
  | .IntentExecuted, out, _, log =>
      match log.Topics with
      | [] => (out, some ⟨"no event signature"⟩)
      | _ :: indexed =>
          match log.Data with
          | [a, b, c, d] =>
              let out := { out with InputAmt := some (a : Int), UserAmtOut := some (b : Int),
                                    Received := some (c : Int), Surplus := some (d : Int) }
              match indexed with
              | [u, i, o] =>
                  ({ out with User := Fin.ofNat u, InputToken := Fin.ofNat i,
                              OutputToken := Fin.ofNat o }, none)
              | _ => (out, some ⟨"topic count mismatch"⟩)
          | _ => (out, some ⟨"data length mismatch"⟩)
  | .ExecutorUpdated, out, _, log =>
      match log.Topics with
      | [_, o, n] => ({ out with OldExecutor := Fin.ofNat o, NewExecutor := Fin.ofNat n }, none)
      | [] => (out, some ⟨"no event signature"⟩)
      | _ => (out, some ⟨"topic count mismatch"⟩)
  | .TreasuryUpdated, out, _, log =>
      match log.Topics with
      | [_, o, n] => ({ out with OldTreasury := Fin.ofNat o, NewTreasury := Fin.ofNat n }, none)
      | [] => (out, some ⟨"no event signature"⟩)
      | _ => (out, some ⟨"topic count mismatch"⟩)
  | .SwapTargetsUpdated, out, _, log =>
      match log.Topics with
      | [] => (out, some ⟨"no event signature"⟩)
      | _ => ({ out with Targets := log.Data.map Fin.ofNat }, none)

/-- Sample bound contract: `FilterLogs` hands back two stored logs and a subscription that
has already completed, and fails when it is given no filter options. -/
def sampleContract : BoundContract :=
  { UnpackLog := sampleUnpackLog,
    FilterLogs := fun opts _ _ =>
      match opts with
      | none => .error ⟨"no filter options"⟩
      | some _ =>
          .ok (⟨[{ Log.zero with Topics := [7, 1, 2] }, { Log.zero with Topics := [7, 2, 3] }],
                false⟩, ⟨⟨[], true⟩, 0⟩),
    WatchLogs := fun opts _ _ =>
      match opts with
      | none => .error ⟨"no watch options"⟩
      | some _ =>
          .ok (⟨[{ Log.zero with Topics := [7, 1, 2] }, { Log.zero with Topics := [7] },
                 { Log.zero with Topics := [7, 2, 3] }], false⟩,
               ⟨⟨[some ⟨"connection lost"⟩], false⟩, 0⟩),
    Transact := fun opts method _ =>
      match opts with
      | none => (none, some ⟨"no transact options"⟩)
      | some o => (some ⟨method.length + o.GasLimit⟩, none) }

/-- First stored sample log: a well-formed `ExecutorUpdated` log. -/
def sampleLog1 : Log := { Log.zero with Topics := [7, 1, 2] }

/-- Second stored sample log. -/
def sampleLog2 : Log := { Log.zero with Topics := [7, 2, 3] }

/-- A log with the signature topic and a full data section but no indexed topics. -/
def truncatedLog : Log := { Log.zero with Topics := [7], Data := [10, 9, 11, 2] }

/-- Active iterator over the two sample logs whose subscription has completed. -/
def sampleIterator : Iterator .ExecutorUpdated :=
  { Event := none, contract := sampleContract, event := "ExecutorUpdated",
    logs := ⟨[sampleLog1, sampleLog2], false⟩, sub := ⟨⟨[], true⟩, 0⟩,
    done := false, fail := none }

/-- Active `IntentExecuted` iterator that has delivered nothing yet and whose next
buffered log is truncated. -/
def truncatedIterator : Iterator .IntentExecuted :=
  { Event := none, contract := sampleContract, event := "IntentExecuted",
    logs := ⟨[truncatedLog], false⟩, sub := ⟨⟨[], false⟩, 0⟩, done := false, fail := none }

/-- Active iterator with one decodable log buffered and an upstream error pending. -/
def interruptedIterator : Iterator .ExecutorUpdated :=
  { Event := none, contract := sampleContract, event := "ExecutorUpdated",
    logs := ⟨[sampleLog1], false⟩, sub := ⟨⟨[some ⟨"connection lost"⟩], false⟩, 0⟩,
    done := false, fail := none }

/-- Failed iterator with a log still buffered and a completed upstream. -/
def failedIterator : Iterator .ExecutorUpdated :=
  { Event := none, contract := sampleContract, event := "ExecutorUpdated",
    logs := ⟨[sampleLog1], false⟩, sub := ⟨⟨[], true⟩, 0⟩,
    done := true, fail := some ⟨"connection lost"⟩ }

/-- Sample subscription implementation: `Unsubscribe` closes the error channel. -/
def sampleImpl : SubscriptionImpl :=
  { onUnsubscribe := fun s => { s.errc with closed := true } }

/-- A log of the sample contract with the signature topic only. -/
def shortLog : Log := { Log.zero with Topics := [7] }

/-- Task of `WatchExecutorUpdated` on the sample contract at its start: three incoming
logs, the second of which does not decode, and an upstream error pending. -/
def sampleTask : WatchTask .ExecutorUpdated :=
  { contract := sampleContract, name := "ExecutorUpdated",
    logs := ⟨[sampleLog1, shortLog, sampleLog2], false⟩,
    sub := ⟨⟨[some ⟨"connection lost"⟩], false⟩, 0⟩, sink := [], pc := .outer }

/-- Sample library: the ABI parses, and every bound contract is the sample contract. -/
def sampleLibrary : BindLibrary :=
  { GetAbi := fun m =>
      .ok { Methods := m.ABI.filter (fun e => e.type = "function"),
            Events := m.ABI.filter (fun e => e.type = "event"),
            Errors := m.ABI.filter (fun e => e.type = "error") },
    NewBoundContract := fun _ _ _ _ _ => sampleContract }

/-- The sample task holding the record of its first log at the inner select, the consumer
not receiving. -/
def heldTask : WatchTask .ExecutorUpdated :=
  { sampleTask with
    logs := ⟨[shortLog, sampleLog2], false⟩,
    pc := .inner (Record.setRaw (k := .ExecutorUpdated)
      { OldExecutor := 1, NewExecutor := 2, Raw := Log.zero } sampleLog1) }

/-- Sample transaction options. -/
def sampleOpts : TransactOpts :=
  { From := 5, Nonce := none, Value := none, GasPrice := none, GasLimit := 21000,
    NoSend := false }

/-- Low-level wrapper around an instance bound to the sample contract. -/
def sampleRaw : Ifastsettlementv3Raw :=
  { Contract :=
      { Ifastsettlementv3Caller := { contract := sampleContract },
        Ifastsettlementv3Transactor := { contract := sampleContract },
        Ifastsettlementv3Filterer := { contract := sampleContract } } }

/-- Low-level transactor wrapper around the sample contract. -/
def sampleTransactorRaw : Ifastsettlementv3TransactorRaw :=
  { Contract := { contract := sampleContract } }

/-! ## Unfolding lemmas for `Next` -/

theorem Iterator.Next_of_fail {k : EventKind} (pick : SelectCase) (it : Iterator k)
    (hf : it.fail ≠ none) : it.Next pick = some (false, it) := by
  rw [Iterator.Next]; simp [hf]

theorem Iterator.Next_of_done {k : EventKind} (pick : SelectCase) (it : Iterator k)
    (hf : it.fail = none) (hd : it.done = true) :
    it.Next pick =
      match it.logs.recv Log.zero with
      | some (log, rest) => some (Iterator.onLog { it with logs := rest } log)
      | none => some (false, it) := by
  rw [Iterator.Next]; simp [hf, hd]

theorem Iterator.Next_of_active {k : EventKind} (pick : SelectCase) (it : Iterator k)
    (hf : it.fail = none) (hd : it.done = false) :
    it.Next pick =
      match select2 pick (it.logs.recv Log.zero) (it.sub.errc.recv none) with
      | some (.inl (log, rest)) => some (Iterator.onLog { it with logs := rest } log)
      | some (.inr (err, rest)) =>
          Iterator.Next pick
            { it with sub := { it.sub with errc := rest }, done := true, fail := err }
      | none => none := by
  rw [Iterator.Next]; simp [hf, hd]

theorem Iterator.onLog_ok {k : EventKind} (it : Iterator k) (log : Log) (out : Record k)
    (h : it.contract.UnpackLog k (Record.new k) it.event log = (out, none)) :
    it.onLog log = (true, { it with Event := some (Record.setRaw out log) }) := by
  simp [Iterator.onLog, h]

theorem Iterator.onLog_err {k : EventKind} (it : Iterator k) (log : Log) (out : Record k)
    (e : GoError) (h : it.contract.UnpackLog k (Record.new k) it.event log = (out, some e)) :
    it.onLog log = (false, { it with Event := some out, fail := some e }) := by
  simp [Iterator.onLog, h]

theorem Record.getRaw_setRaw {k : EventKind} (r : Record k) (log : Log) :
    Record.getRaw (Record.setRaw r log) = log := by
  cases k <;> rfl

/-- A closed error channel holding only nil values always yields nil and stays so. -/
theorem Chan.recv_completed (c : Chan (Option GoError)) (hc : c.closed = true)
    (hn : ∀ e ∈ c.buf, e = none) :
    ∃ c1, c.recv none = some (none, c1) ∧ c1.closed = true ∧ ∀ e ∈ c1.buf, e = none := by
  obtain ⟨buf, closed⟩ := c
  cases buf with
  | nil =>
      refine ⟨⟨[], closed⟩, ?_, hc, hn⟩
      simp only at hc
      simp [Chan.recv, hc]
  | cons x rest =>
      have hx : x = none := hn x (by simp)
      refine ⟨⟨rest, closed⟩, ?_, hc, ?_⟩
      · simp [Chan.recv, hx]
      · intro e he
        exact hn e (by simp at he ⊢; exact Or.inr he)

/-! ## Delivery in order (C1) -/

/-- One call with a decodable log at the head of the buffer and a completed upstream:
the call returns true with that log decoded, whichever case the select takes. -/
theorem Iterator.Next_step_log {k : EventKind} (pick : SelectCase) (it : Iterator k)
    (l : Log) (rest : List Log) (out : Record k)
    (hf : it.fail = none) (hlogs : it.logs = ⟨l :: rest, false⟩)
    (hc : it.sub.errc.closed = true) (hn : ∀ e ∈ it.sub.errc.buf, e = none)
    (hdec : it.contract.UnpackLog k (Record.new k) it.event l = (out, none)) :
    ∃ it1, it.Next pick = some (true, it1) ∧ it1.Event = some (Record.setRaw out l) ∧
      it1.logs = ⟨rest, false⟩ ∧ it1.fail = none ∧ it1.contract = it.contract ∧
      it1.event = it.event ∧ it1.sub.errc.closed = true ∧
      ∀ e ∈ it1.sub.errc.buf, e = none := by
  obtain ⟨c1, hrecv, hc1, hn1⟩ := Chan.recv_completed it.sub.errc hc hn
  have hl : it.logs.recv Log.zero = some (l, ⟨rest, false⟩) := by
    rw [hlogs]; rfl
  cases hd : it.done with
  | true =>
      refine ⟨{ it with logs := ⟨rest, false⟩, Event := some (Record.setRaw out l) },
        ?_, rfl, rfl, hf, rfl, rfl, hc, hn⟩
      rw [Iterator.Next_of_done pick it hf hd, hl]
      simp only
      rw [Iterator.onLog_ok { it with logs := ⟨rest, false⟩ } l out hdec]
  | false =>
      rw [Iterator.Next_of_active pick it hf hd, hl, hrecv]
      cases pick with
      | logs =>
          refine ⟨{ it with logs := ⟨rest, false⟩, Event := some (Record.setRaw out l) },
            ?_, rfl, rfl, hf, rfl, rfl, hc, hn⟩
          simp only [select2]
          rw [Iterator.onLog_ok { it with logs := ⟨rest, false⟩ } l out hdec]
      | err =>
          refine ⟨{ it with sub := { it.sub with errc := c1 }, done := true, fail := none,
                            logs := ⟨rest, false⟩, Event := some (Record.setRaw out l) },
            ?_, rfl, rfl, rfl, rfl, rfl, hc1, hn1⟩
          simp only [select2]
          rw [Iterator.Next_of_done SelectCase.err _ rfl rfl]
          simp only [hl]
          rw [Iterator.onLog_ok
            { it with sub := { it.sub with errc := c1 }, done := true, fail := none,
                      logs := ⟨rest, false⟩ } l out hdec]

/-- One call with an empty open buffer and a completed upstream: the call returns false
and keeps `Event`. -/
theorem Iterator.Next_step_empty {k : EventKind} (pick : SelectCase) (it : Iterator k)
    (hf : it.fail = none) (hlogs : it.logs = ⟨[], false⟩)
    (hc : it.sub.errc.closed = true) (hn : ∀ e ∈ it.sub.errc.buf, e = none) :
    ∃ it1, it.Next pick = some (false, it1) ∧ it1.Event = it.Event ∧
      it1.logs = ⟨[], false⟩ ∧ it1.fail = none ∧ it1.sub.errc.closed = true ∧
      ∀ e ∈ it1.sub.errc.buf, e = none := by
  obtain ⟨c1, hrecv, hc1, hn1⟩ := Chan.recv_completed it.sub.errc hc hn
  have hl : it.logs.recv Log.zero = none := by
    rw [hlogs]; rfl
  cases hd : it.done with
  | true =>
      refine ⟨it, ?_, rfl, hlogs, hf, hc, hn⟩
      rw [Iterator.Next_of_done pick it hf hd, hl]
  | false =>
      refine ⟨{ it with sub := { it.sub with errc := c1 }, done := true, fail := none },
        ?_, rfl, hlogs, rfl, hc1, hn1⟩
      rw [Iterator.Next_of_active pick it hf hd, hl, hrecv]
      simp only [select2]
      rw [Iterator.Next_of_done pick _ rfl rfl]
      simp only [hl]

/-- Once the buffer is drained and the upstream has completed, every further call returns
false, keeps `Event` and reports no error. -/
theorem Iterator.NextSeq_exhausted {k : EventKind} (picks : List SelectCase) :
    ∀ (it : Iterator k), it.fail = none → it.logs = ⟨[], false⟩ →
      it.sub.errc.closed = true → (∀ e ∈ it.sub.errc.buf, e = none) →
      ∃ rs, it.NextSeq picks = some rs ∧ rs.length = picks.length ∧
        ∀ r ∈ rs, r.1 = false ∧ r.2.Event = it.Event ∧ r.2.Error = none := by
  induction picks with
  | nil =>
      intro it _ _ _ _
      exact ⟨[], rfl, rfl, by simp⟩
  | cons pick picks ih =>
      intro it hf hlogs hc hn
      obtain ⟨it1, hnext, hev, hlogs1, hf1, hc1, hn1⟩ :=
        Iterator.Next_step_empty pick it hf hlogs hc hn
      obtain ⟨rs, hrs, hlen, hall⟩ := ih it1 hf1 hlogs1 hc1 hn1
      refine ⟨(false, it1) :: rs, ?_, by simp [hlen], ?_⟩
      · simp [Iterator.NextSeq, hnext, hrs]
      · intro r hr
        rcases List.mem_cons.mp hr with h | h
        · subst h
          exact ⟨rfl, hev, hf1⟩
        · obtain ⟨h1, h2, h3⟩ := hall r h
          exact ⟨h1, h2.trans hev, h3⟩

/-- C1: for each of the four iterators, when the log channel holds exactly the logs
`ls` (all decodable) and the upstream subscription has completed without error, any
number of successive `Next` calls beyond `ls.length` gives: true for exactly the first
`ls.length` calls, the k-th of them leaving `Event` equal to the decoding of the k-th log
with `Raw` equal to that log, and false for every call after them, with no error, and this
for every choice the select makes in every call. -/
theorem Next_delivers_logs_in_order (k : EventKind) (ls : List Log) :
    ∀ (it : Iterator k) (picks : List SelectCase) (extra : Nat),
      it.fail = none → it.logs = ⟨ls, false⟩ →
      it.sub.errc.closed = true → (∀ e ∈ it.sub.errc.buf, e = none) →
      (∀ l ∈ ls, (it.contract.UnpackLog k (Record.new k) it.event l).2 = none) →
      picks.length = ls.length + (extra + 1) →
      ∃ delivered after, it.NextSeq picks = some (delivered ++ after) ∧
        delivered.map (fun r => (r.1, r.2.Event)) =
          ls.map (fun l => (true, some (Record.setRaw
            (it.contract.UnpackLog k (Record.new k) it.event l).1 l))) ∧
        delivered.map (fun r => r.2.Event.map Record.getRaw) = ls.map some ∧
        after.length = extra + 1 ∧
        (∀ r ∈ after, r.1 = false) ∧
        ∀ r ∈ delivered ++ after, r.2.Error = none := by
  induction ls with
  | nil =>
      intro it picks extra hf hlogs hc hn _ hlen
      obtain ⟨rs, hrs, hl, hall⟩ := Iterator.NextSeq_exhausted picks it hf hlogs hc hn
      refine ⟨[], rs, by simpa using hrs, rfl, rfl, ?_, ?_, ?_⟩
      · rw [hl, hlen]; simp
      · intro r hr; exact (hall r hr).1
      · intro r hr; exact (hall r (by simpa using hr)).2.2
  | cons l ls ih =>
      intro it picks extra hf hlogs hc hn hdec hlen
      cases picks with
      | nil => simp only [List.length_cons, List.length_nil] at hlen; omega
      | cons pick picks =>
          have hdl : it.contract.UnpackLog k (Record.new k) it.event l =
              ((it.contract.UnpackLog k (Record.new k) it.event l).1, none) := by
            have := hdec l (by simp)
            exact Prod.ext rfl this
          obtain ⟨it1, hnext, hev, hlogs1, hf1, hct, hevn, hc1, hn1⟩ :=
            Iterator.Next_step_log pick it l ls _ hf hlogs hc hn hdl
          have hdec1 : ∀ x ∈ ls,
              (it1.contract.UnpackLog k (Record.new k) it1.event x).2 = none := by
            intro x hx
            rw [hct, hevn]
            exact hdec x (by simp [hx])
          have hlen1 : picks.length = ls.length + (extra + 1) := by
            simp at hlen; omega
          obtain ⟨d, a, hrs, hmap, hraw, hal, hfalse, herr⟩ :=
            ih it1 picks extra hf1 hlogs1 hc1 hn1 hdec1 hlen1
          refine ⟨(true, it1) :: d, a, ?_, ?_, ?_, hal, hfalse, ?_⟩
          · simp [Iterator.NextSeq, hnext, hrs]
          · simp only [List.map_cons, hev, hmap, hct, hevn]
          · simp only [List.map_cons, hev, hraw, Option.map_some', Record.getRaw_setRaw]
          · intro r hr
            rw [List.cons_append] at hr
            rcases List.mem_cons.mp hr with h | h
            · subst h; exact hf1
            · exact herr r h

/-! ## Decode failures (C2, C3) -/

/-- The calls in which `Next` reaches a `case log := <-it.logs` arm: the iterator is done,
or the select takes the log case, or the error case is not ready, or the error case
yields nil and the retry takes the log. The arm body then runs on the iterator with the
log removed, the same contract and event name, and `Event` not yet touched. -/
theorem Iterator.Next_takes_log {k : EventKind} (pick : SelectCase) (it : Iterator k)
    (l : Log) (rest : Chan Log)
    (hf : it.fail = none) (hl : it.logs.recv Log.zero = some (l, rest))
    (htake : it.done = true ∨ pick = SelectCase.logs ∨ it.sub.errc.recv none = none ∨
      ∃ c1, it.sub.errc.recv none = some (none, c1)) :
    ∃ it0 : Iterator k, it.Next pick = some (it0.onLog l) ∧ it0.contract = it.contract ∧
      it0.event = it.event ∧ it0.Event = it.Event ∧ it0.logs = rest ∧ it0.fail = none := by
  cases hd : it.done with
  | true =>
      refine ⟨{ it with logs := rest }, ?_, rfl, rfl, rfl, rfl, hf⟩
      rw [Iterator.Next_of_done pick it hf hd, hl]
  | false =>
      rw [Iterator.Next_of_active pick it hf hd, hl]
      rcases htake with h | h | h | ⟨c1, h⟩
      · rw [hd] at h; cases h
      · subst h
        refine ⟨{ it with logs := rest }, ?_, rfl, rfl, rfl, rfl, hf⟩
        cases it.sub.errc.recv none <;> rfl
      · rw [h]
        exact ⟨{ it with logs := rest }, rfl, rfl, rfl, rfl, rfl, hf⟩
      · rw [h]
        cases pick with
        | logs => exact ⟨{ it with logs := rest }, rfl, rfl, rfl, rfl, rfl, hf⟩
        | err =>
            refine ⟨{ it with sub := { it.sub with errc := c1 }, done := true, fail := none,
                              logs := rest }, ?_, rfl, rfl, rfl, rfl, rfl⟩
            simp only [select2]
            rw [Iterator.Next_of_done SelectCase.err _ rfl rfl]
            simp only [hl]

/-- C2: for every iterator with no prior failure, done or not, in which `Next` takes a raw
log whose `UnpackLog` returns the error `e`: `Next` returns false and `Error()` afterwards
returns exactly `e`. -/
theorem Next_decode_error_retrievable (k : EventKind) (pick : SelectCase) (it : Iterator k)
    (l : Log) (rest : Chan Log) (out : Record k) (e : GoError)
    (hf : it.fail = none) (hl : it.logs.recv Log.zero = some (l, rest))
    (htake : it.done = true ∨ pick = SelectCase.logs ∨ it.sub.errc.recv none = none ∨
      ∃ c1, it.sub.errc.recv none = some (none, c1))
    (hdec : it.contract.UnpackLog k (Record.new k) it.event l = (out, some e)) :
    ∃ it1, it.Next pick = some (false, it1) ∧ it1.Error = some e := by
  obtain ⟨it0, hnext, hct, hev, _, _, _⟩ := Iterator.Next_takes_log pick it l rest hf hl htake
  rw [← hct, ← hev] at hdec
  rw [hnext, Iterator.onLog_err it0 l out e hdec]
  exact ⟨_, rfl, rfl⟩

/-- C3 as amended: when the decoding of the taken log fails, `Next` returns false and
records the error, the failing log is consumed, and the `Event` field is overwritten with
the freshly allocated record exactly as `UnpackLog` left it (`Raw` is not assigned); the
previous `Event` is not kept. -/
theorem Next_decode_failure_leaves_unpack_target (k : EventKind) (pick : SelectCase)
    (it : Iterator k) (l : Log) (rest : Chan Log) (out : Record k) (e : GoError)
    (hf : it.fail = none) (hl : it.logs.recv Log.zero = some (l, rest))
    (htake : it.done = true ∨ pick = SelectCase.logs ∨ it.sub.errc.recv none = none ∨
      ∃ c1, it.sub.errc.recv none = some (none, c1))
    (hdec : it.contract.UnpackLog k (Record.new k) it.event l = (out, some e)) :
    ∃ it1, it.Next pick = some (false, it1) ∧ it1.Event = some out ∧ it1.fail = some e ∧
      it1.logs = rest := by
  obtain ⟨it0, hnext, hct, hev, _, hlogs, _⟩ :=
    Iterator.Next_takes_log pick it l rest hf hl htake
  rw [← hct, ← hev] at hdec
  rw [hnext, Iterator.onLog_err it0 l out e hdec]
  exact ⟨_, rfl, rfl, rfl, hlogs⟩

/-! ## The Failed state (C4, C5) -/

/-- C4: Failed is absorbing. For every iterator with `fail` set, whatever the log channel
and the error channel hold and whatever the select would pick, `Next` returns false and
returns the iterator unchanged; so does every later call. -/
theorem Next_failed_is_absorbing (k : EventKind) (it : Iterator k) (hf : it.fail ≠ none) :
    (∀ pick, it.Next pick = some (false, it)) ∧
    (∀ pick, ∀ r ∈ it.Next pick, r.2.Error = it.Error ∧ r.2.logs = it.logs ∧
      r.2.sub = it.sub ∧ r.2.Event = it.Event ∧ r.2.done = it.done) ∧
    ∀ picks : List SelectCase, it.NextSeq picks = some (picks.map (fun _ => (false, it))) := by
  have h1 : ∀ pick, it.Next pick = some (false, it) :=
    fun pick => Iterator.Next_of_fail pick it hf
  refine ⟨h1, ?_, ?_⟩
  · intro pick r hr
    rw [h1 pick] at hr
    cases hr
    exact ⟨rfl, rfl, rfl, rfl, rfl⟩
  · intro picks
    induction picks with
    | nil => rfl
    | cons pick picks ih => simp [Iterator.NextSeq, h1 pick, ih]

/-- C5: for every Active iterator in which `Next` receives a non-nil error `e` from the
upstream error channel (the error case is ready and the select takes it, by choice or
because no log is ready): `Next` returns false and `Error()` is exactly `e`; the buffered
logs and `Event` are left as they were. -/
theorem Next_upstream_error_fails (k : EventKind) (pick : SelectCase) (it : Iterator k)
    (e : GoError) (c1 : Chan (Option GoError))
    (hd : it.done = false) (hf : it.fail = none)
    (herr : it.sub.errc.recv none = some (some e, c1))
    (htake : pick = SelectCase.err ∨ it.logs.recv Log.zero = none) :
    it.Next pick =
        some (false, { it with sub := { it.sub with errc := c1 }, done := true,
                               fail := some e }) ∧
      ∀ r ∈ it.Next pick, r.1 = false ∧ r.2.Error = some e ∧ r.2.logs = it.logs ∧
        r.2.Event = it.Event := by
  have hnext : it.Next pick =
      some (false, { it with sub := { it.sub with errc := c1 }, done := true,
                             fail := some e }) := by
    rw [Iterator.Next_of_active pick it hf hd, herr]
    have hsel : select2 pick (it.logs.recv Log.zero) (some (some e, c1)) =
        some (.inr (some e, c1)) := by
      rcases htake with h | h
      · subst h
        cases it.logs.recv Log.zero <;> rfl
      · rw [h]; rfl
    rw [hsel]
    exact Iterator.Next_of_fail pick _ (by simp)
  refine ⟨hnext, ?_⟩
  intro r hr
  rw [hnext] at hr
  cases hr
  exact ⟨rfl, rfl, rfl, rfl⟩

/-! ## The retry after an upstream event (C6, C7) -/

/-- The error case with a non-nil error, select choice fixed to the upstream case. -/
theorem Iterator.Next_err_case_error {k : EventKind} (it : Iterator k) (e : GoError)
    (c1 : Chan (Option GoError)) (hd : it.done = false) (hf : it.fail = none)
    (herr : it.sub.errc.recv none = some (some e, c1)) :
    it.Next SelectCase.err =
      some (false, { it with sub := { it.sub with errc := c1 }, done := true,
                             fail := some e }) := by
  rw [Iterator.Next_of_active SelectCase.err it hf hd, herr]
  have hsel : select2 SelectCase.err (it.logs.recv Log.zero) (some (some e, c1)) =
      some (.inr (some e, c1)) := by
    cases it.logs.recv Log.zero <;> rfl
  rw [hsel]
  exact Iterator.Next_of_fail SelectCase.err _ (by simp)

/-- The log arm touches neither the subscription nor `done`. -/
theorem Iterator.onLog_frame {k : EventKind} (it : Iterator k) (log : Log) :
    (it.onLog log).2.sub = it.sub ∧ (it.onLog log).2.done = it.done ∧
      (it.onLog log).2.logs = it.logs := by
  rcases h : it.contract.UnpackLog k (Record.new k) it.event log with ⟨out, _ | e⟩
  · rw [Iterator.onLog_ok it log out h]
    exact ⟨rfl, rfl, rfl⟩
  · rw [Iterator.onLog_err it log out e h]
    exact ⟨rfl, rfl, rfl⟩

/-- When the select takes the error case and the value received is nil, the call is the
retry: `Next` on the iterator with `done` set and `fail` still nil. -/
theorem Iterator.Next_nil_retry {k : EventKind} (pick : SelectCase) (it : Iterator k)
    (c1 : Chan (Option GoError)) (hd : it.done = false) (hf : it.fail = none)
    (herr : it.sub.errc.recv none = some (none, c1))
    (htake : pick = SelectCase.err ∨ it.logs.recv Log.zero = none) :
    it.Next pick =
      Iterator.Next pick
        { it with sub := { it.sub with errc := c1 }, done := true, fail := none } := by
  rw [Iterator.Next_of_active pick it hf hd, herr]
  have hsel : select2 pick (it.logs.recv Log.zero) (some ((none : Option GoError), c1)) =
      some (.inr (none, c1)) := by
    rcases htake with h | h
    · subst h
      cases it.logs.recv Log.zero <;> rfl
    · rw [h]; rfl
  rw [hsel]

/-- A done iterator never waits: `Next` returns, keeps `done` and leaves the subscription
alone. -/
theorem Iterator.Next_done_returns {k : EventKind} (pick : SelectCase) (it : Iterator k)
    (hd : it.done = true) :
    ∃ r, it.Next pick = some r ∧ r.2.sub = it.sub ∧ r.2.done = true := by
  by_cases hf : it.fail = none
  · rw [Iterator.Next_of_done pick it hf hd]
    cases it.logs.recv Log.zero with
    | none => exact ⟨(false, it), rfl, rfl, hd⟩
    | some p =>
        obtain ⟨l, rest⟩ := p
        have hfr := Iterator.onLog_frame { it with logs := rest } l
        exact ⟨_, rfl, hfr.1, hfr.2.1.trans hd⟩
  · exact ⟨(false, it), Iterator.Next_of_fail pick it hf, rfl, hd⟩

/-- From a done iterator on, no call ever waits or touches the subscription. -/
theorem Iterator.NextSeq_done {k : EventKind} (picks : List SelectCase) :
    ∀ it : Iterator k, it.done = true →
      ∃ rs, it.NextSeq picks = some rs ∧ rs.length = picks.length ∧
        ∀ r ∈ rs, r.2.done = true ∧ r.2.sub = it.sub := by
  induction picks with
  | nil =>
      intro it _
      exact ⟨[], rfl, rfl, by simp⟩
  | cons pick picks ih =>
      intro it hd
      obtain ⟨r, hnext, hsub, hdone⟩ := Iterator.Next_done_returns pick it hd
      obtain ⟨rs, hrs, hlen, hall⟩ := ih r.2 hdone
      refine ⟨r :: rs, ?_, by simp [hlen], ?_⟩
      · simp [Iterator.NextSeq, hnext, hrs]
      · intro x hx
        rcases List.mem_cons.mp hx with h | h
        · subst h; exact ⟨hdone, hsub⟩
        · exact ⟨(hall x h).1, (hall x h).2.trans hsub⟩

/-- C6 as amended: in an Active iterator with a decodable log at the head of the buffer,
when the select takes the upstream case, `Next` stores the received value in `fail`, sets
`done` and retries once. If the value is a non-nil error `e` the retry stops at the fail
check: the call returns false, `Error()` is `e`, and the buffered log is neither delivered
nor removed. Only if the value is nil (the subscription ended) does the retry deliver the
buffered log. If the select takes the log case instead, the log is delivered and the
upstream value stays pending. -/
theorem Next_upstream_case_retry (k : EventKind) (it : Iterator k) (l : Log)
    (rest : Chan Log) (out : Record k) (v : Option GoError) (c1 : Chan (Option GoError))
    (hd : it.done = false) (hf : it.fail = none)
    (hl : it.logs.recv Log.zero = some (l, rest))
    (hdec : it.contract.UnpackLog k (Record.new k) it.event l = (out, none))
    (herr : it.sub.errc.recv none = some (v, c1)) :
    it.Next SelectCase.err =
        (match v with
         | some e =>
             some (false, { it with sub := { it.sub with errc := c1 }, done := true,
                                    fail := some e })
         | none =>
             some (true, { it with sub := { it.sub with errc := c1 }, done := true,
                                   logs := rest, Event := some (Record.setRaw out l) })) ∧
      it.Next SelectCase.logs =
        some (true, { it with logs := rest, Event := some (Record.setRaw out l) }) := by
  constructor
  · cases v with
    | some e =>
        exact (Iterator.Next_err_case_error it e c1 hd hf herr)
    | none =>
        rw [Iterator.Next_nil_retry SelectCase.err it c1 hd hf herr (Or.inl rfl),
          Iterator.Next_of_done SelectCase.err _ rfl rfl]
        simp only [hl]
        rw [Iterator.onLog_ok
          { it with sub := { it.sub with errc := c1 }, done := true, fail := none,
                    logs := rest } l out hdec]
        simp [hf]
  · rw [Iterator.Next_of_active SelectCase.logs it hf hd, hl, herr]
    simp only [select2]
    rw [Iterator.onLog_ok { it with logs := rest } l out hdec]

/-- C7: in an Active iterator in which `Next` receives nil from the upstream error channel
(the subscription ended without error): the call continues as `Next` on the iterator with
`done` true and `fail` still nil; the subscription is never consulted again, in this call
and in every later one, and no such call waits. This call and every later call with `fail`
nil return true with the decoded head of the buffer when a decodable log is buffered, and
return false with `Error()` nil when nothing is buffered. -/
theorem Next_upstream_end_drains (k : EventKind) (pick : SelectCase) (it : Iterator k)
    (c1 : Chan (Option GoError)) (hd : it.done = false) (hf : it.fail = none)
    (herr : it.sub.errc.recv none = some (none, c1))
    (htake : pick = SelectCase.err ∨ it.logs.recv Log.zero = none) :
    it.Next pick =
      Iterator.Next pick
        { it with sub := { it.sub with errc := c1 }, done := true, fail := none } ∧
    (∀ l rest out, it.logs.recv Log.zero = some (l, rest) →
        it.contract.UnpackLog k (Record.new k) it.event l = (out, none) →
        it.Next pick =
          some (true, { it with sub := { it.sub with errc := c1 }, done := true,
                                fail := none, logs := rest,
                                Event := some (Record.setRaw out l) })) ∧
    (it.logs.buf = [] → it.logs.closed = false →
        it.Next pick =
          some (false, { it with sub := { it.sub with errc := c1 }, done := true,
                                 fail := none })) ∧
    (∀ picks : List SelectCase, ∃ rs, it.NextSeq (pick :: picks) = some rs ∧
        rs.length = picks.length + 1 ∧
        ∀ r ∈ rs, r.2.done = true ∧ r.2.sub = { it.sub with errc := c1 }) ∧
    (∀ (it2 : Iterator k) (pick2 : SelectCase), it2.done = true → it2.fail = none →
        (∀ l rest out, it2.logs.recv Log.zero = some (l, rest) →
          it2.contract.UnpackLog k (Record.new k) it2.event l = (out, none) →
          it2.Next pick2 =
            some (true, { it2 with logs := rest, Event := some (Record.setRaw out l) })) ∧
        (it2.logs.buf = [] → it2.logs.closed = false →
          it2.Next pick2 = some (false, it2) ∧ it2.Error = none)) := by
  have hretry := Iterator.Next_nil_retry pick it c1 hd hf herr htake
  have hempty : ∀ c : Chan Log, c.buf = [] → c.closed = false → c.recv Log.zero = none := by
    intro c hb hc
    simp [Chan.recv, hb, hc]
  refine ⟨hretry, ?_, ?_, ?_, ?_⟩
  · intro l rest out hl hdec
    rw [hretry, Iterator.Next_of_done pick _ rfl rfl]
    simp only [hl]
    rw [Iterator.onLog_ok
      { it with sub := { it.sub with errc := c1 }, done := true, fail := none,
                logs := rest } l out hdec]
  · intro hb hc
    rw [hretry, Iterator.Next_of_done pick _ rfl rfl]
    simp only [hempty it.logs hb hc]
  · intro picks
    obtain ⟨r, hnext, hsub, hdone⟩ := Iterator.Next_done_returns pick
      { it with sub := { it.sub with errc := c1 }, done := true, fail := none } rfl
    obtain ⟨rs, hrs, hlen, hall⟩ := Iterator.NextSeq_done picks r.2 hdone
    refine ⟨r :: rs, ?_, by simp [hlen], ?_⟩
    · simp [Iterator.NextSeq, hretry, hnext, hrs]
    · intro x hx
      rcases List.mem_cons.mp hx with h | h
      · subst h; exact ⟨hdone, hsub⟩
      · exact ⟨(hall x h).1, (hall x h).2.trans hsub⟩
  · intro it2 pick2 hd2 hf2
    constructor
    · intro l rest out hl hdec
      rw [Iterator.Next_of_done pick2 it2 hf2 hd2, hl]
      simp only
      rw [Iterator.onLog_ok { it2 with logs := rest } l out hdec]
    · intro hb hc
      rw [Iterator.Next_of_done pick2 it2 hf2 hd2, hempty it2.logs hb hc]
      exact ⟨rfl, hf2⟩

/-! ## Close (C8) -/

/-- C8: for each of the four iterators and every iterator state, `Close` returns nil,
issues one `Unsubscribe` on the subscription and leaves `Event`, `done`, `fail` and the
buffered logs unchanged; after any number of calls in a row the next one again returns
nil, and each call has issued one more `Unsubscribe`. -/
theorem Close_returns_nil_and_unsubscribes (k : EventKind) (impl : SubscriptionImpl)
    (it : Iterator k) :
    ((it.Close impl).1 = none ∧
      (it.Close impl).2.sub = it.sub.Unsubscribe impl ∧
      (it.Close impl).2.sub.unsubscribed = it.sub.unsubscribed + 1 ∧
      (it.Close impl).2.Event = it.Event ∧ (it.Close impl).2.done = it.done ∧
      (it.Close impl).2.fail = it.fail ∧ (it.Close impl).2.logs = it.logs) ∧
    ∀ n : Nat,
      (((fun x : Iterator k => (x.Close impl).2)^[n] it).Close impl).1 = none ∧
      ((fun x : Iterator k => (x.Close impl).2)^[n] it).sub.unsubscribed =
        it.sub.unsubscribed + n ∧
      ((fun x : Iterator k => (x.Close impl).2)^[n] it).Event = it.Event ∧
      ((fun x : Iterator k => (x.Close impl).2)^[n] it).done = it.done ∧
      ((fun x : Iterator k => (x.Close impl).2)^[n] it).fail = it.fail ∧
      ((fun x : Iterator k => (x.Close impl).2)^[n] it).logs = it.logs := by
  refine ⟨⟨rfl, rfl, rfl, rfl, rfl, rfl, rfl⟩, ?_⟩
  intro n
  induction n with
  | zero => exact ⟨rfl, rfl, rfl, rfl, rfl, rfl⟩
  | succ n ih =>
      obtain ⟨_, h2, h3, h4, h5, h6⟩ := ih
      rw [Function.iterate_succ_apply']
      refine ⟨rfl, ?_, h3, h4, h5, h6⟩
      show ((fun x : Iterator k => (x.Close impl).2)^[n] it).sub.unsubscribed + 1 = _
      rw [h2]; omega

/-! ## Parsers (C9) -/

/-- Setting `Raw` changes no decoded field. -/
theorem Record.setRaw_fields (log : Log) :
    (∀ r : Ifastsettlementv3ExecutorUpdated,
      (Record.setRaw (k := .ExecutorUpdated) r log).OldExecutor = r.OldExecutor ∧
      (Record.setRaw (k := .ExecutorUpdated) r log).NewExecutor = r.NewExecutor) ∧
    (∀ r : Ifastsettlementv3IntentExecuted,
      (Record.setRaw (k := .IntentExecuted) r log).User = r.User ∧
      (Record.setRaw (k := .IntentExecuted) r log).InputToken = r.InputToken ∧
      (Record.setRaw (k := .IntentExecuted) r log).OutputToken = r.OutputToken ∧
      (Record.setRaw (k := .IntentExecuted) r log).InputAmt = r.InputAmt ∧
      (Record.setRaw (k := .IntentExecuted) r log).UserAmtOut = r.UserAmtOut ∧
      (Record.setRaw (k := .IntentExecuted) r log).Received = r.Received ∧
      (Record.setRaw (k := .IntentExecuted) r log).Surplus = r.Surplus) ∧
    (∀ r : Ifastsettlementv3SwapTargetsUpdated,
      (Record.setRaw (k := .SwapTargetsUpdated) r log).Targets = r.Targets ∧
      (Record.setRaw (k := .SwapTargetsUpdated) r log).Allowed = r.Allowed) ∧
    (∀ r : Ifastsettlementv3TreasuryUpdated,
      (Record.setRaw (k := .TreasuryUpdated) r log).OldTreasury = r.OldTreasury ∧
      (Record.setRaw (k := .TreasuryUpdated) r log).NewTreasury = r.NewTreasury) :=
  ⟨fun _ => ⟨rfl, rfl⟩, fun _ => ⟨rfl, rfl, rfl, rfl, rfl, rfl, rfl⟩, fun _ => ⟨rfl, rfl⟩,
    fun _ => ⟨rfl, rfl⟩⟩

/-- Each `ParseX` in terms of what `UnpackLog` returns for its event name. -/
theorem Parse_eq (k : EventKind) (contract : BoundContract) (log : Log) :
    Parse k contract log =
      match contract.UnpackLog k (Record.new k) k.name log with
      | (_, some err) => (none, some err)
      | (out, none) => (some (Record.setRaw out log), none) := by
  cases k
  · simp only [Parse, ParseExecutorUpdated, EventKind.name]
    rcases contract.UnpackLog .ExecutorUpdated _ _ log with ⟨out, _ | e⟩ <;> rfl
  · simp only [Parse, ParseIntentExecuted, EventKind.name]
    rcases contract.UnpackLog .IntentExecuted _ _ log with ⟨out, _ | e⟩ <;> rfl
  · simp only [Parse, ParseSwapTargetsUpdated, EventKind.name]
    rcases contract.UnpackLog .SwapTargetsUpdated _ _ log with ⟨out, _ | e⟩ <;> rfl
  · simp only [Parse, ParseTreasuryUpdated, EventKind.name]
    rcases contract.UnpackLog .TreasuryUpdated _ _ log with ⟨out, _ | e⟩ <;> rfl

/-- C9: for each of the four `ParseX` methods and every raw log: the result is `(nil, e)`
exactly when `UnpackLog` for that event name fails with `e`; otherwise the result is a
non-nil record, with a nil error, that is the record `UnpackLog` produced with `Raw` set
to the input log and every decoded field as `UnpackLog` left it. Equal logs give equal
results. -/
theorem Parse_result (k : EventKind) (contract : BoundContract) (log : Log) :
    (∀ e, Parse k contract log = (none, some e) ↔
      (contract.UnpackLog k (Record.new k) k.name log).2 = some e) ∧
    ((contract.UnpackLog k (Record.new k) k.name log).2 = none →
      Parse k contract log =
        (some (Record.setRaw (contract.UnpackLog k (Record.new k) k.name log).1 log), none) ∧
      Record.getRaw (Record.setRaw (contract.UnpackLog k (Record.new k) k.name log).1 log)
        = log) ∧
    ((Parse k contract log).1 = none ↔ (Parse k contract log).2 ≠ none) ∧
    (Parse .ExecutorUpdated = ParseExecutorUpdated ∧
      Parse .IntentExecuted = ParseIntentExecuted ∧
      Parse .SwapTargetsUpdated = ParseSwapTargetsUpdated ∧
      Parse .TreasuryUpdated = ParseTreasuryUpdated) ∧
    (∀ r : Ifastsettlementv3IntentExecuted,
      (Record.setRaw (k := .IntentExecuted) r log).User = r.User ∧
      (Record.setRaw (k := .IntentExecuted) r log).InputToken = r.InputToken ∧
      (Record.setRaw (k := .IntentExecuted) r log).OutputToken = r.OutputToken ∧
      (Record.setRaw (k := .IntentExecuted) r log).InputAmt = r.InputAmt ∧
      (Record.setRaw (k := .IntentExecuted) r log).UserAmtOut = r.UserAmtOut ∧
      (Record.setRaw (k := .IntentExecuted) r log).Received = r.Received ∧
      (Record.setRaw (k := .IntentExecuted) r log).Surplus = r.Surplus) ∧
    (∀ r : Ifastsettlementv3ExecutorUpdated,
      (Record.setRaw (k := .ExecutorUpdated) r log).OldExecutor = r.OldExecutor ∧
      (Record.setRaw (k := .ExecutorUpdated) r log).NewExecutor = r.NewExecutor) ∧
    (∀ r : Ifastsettlementv3SwapTargetsUpdated,
      (Record.setRaw (k := .SwapTargetsUpdated) r log).Targets = r.Targets ∧
      (Record.setRaw (k := .SwapTargetsUpdated) r log).Allowed = r.Allowed) ∧
    (∀ r : Ifastsettlementv3TreasuryUpdated,
      (Record.setRaw (k := .TreasuryUpdated) r log).OldTreasury = r.OldTreasury ∧
      (Record.setRaw (k := .TreasuryUpdated) r log).NewTreasury = r.NewTreasury) ∧
    ∀ log2, log2 = log → Parse k contract log2 = Parse k contract log := by
  have hf := Record.setRaw_fields log
  refine ⟨?_, ?_, ?_, ⟨rfl, rfl, rfl, rfl⟩, hf.2.1, hf.1, hf.2.2.1, hf.2.2.2, ?_⟩
  · intro e
    rw [Parse_eq]
    rcases contract.UnpackLog k (Record.new k) k.name log with ⟨out, _ | e1⟩ <;> simp
  · intro h
    refine ⟨?_, Record.getRaw_setRaw _ _⟩
    rw [Parse_eq]
    rcases hu : contract.UnpackLog k (Record.new k) k.name log with ⟨out, _ | e1⟩
    · rfl
    · rw [hu] at h; cases h
  · rw [Parse_eq]
    rcases contract.UnpackLog k (Record.new k) k.name log with ⟨out, _ | e1⟩ <;> simp
  · intro log2 h
    rw [h]

/-! ## Filter rules (C10) -/

/-- The append loop builds the rule elementwise, in order. -/
theorem appendRule_eq_map (items : List Address) :
    appendRule items = items.map Any.address := by
  have h : ∀ (xs : List Address) (acc : List Any),
      xs.foldl (fun rule item => rule ++ [Any.address item]) acc
        = acc ++ xs.map Any.address := by
    intro xs
    induction xs with
    | nil => intro acc; simp
    | cons x xs ih => intro acc; simp [ih]
  simpa [appendRule] using h items []

/-- The shared tail makes exactly one `FilterLogs` call, with the arguments it was given. -/
theorem filterLogsInto_calls (k : EventKind) (contract : BoundContract)
    (opts : Option FilterOpts) (name : String) (query : List (List Any)) :
    (filterLogsInto k contract opts name query).calls = [⟨opts, name, query⟩] := by
  unfold filterLogsInto
  split <;> rfl

/-- C10: `FilterIntentExecuted` makes one `FilterLogs` call for event "IntentExecuted" with
exactly three rule lists, for user, inputToken and outputToken in this order, each with
the elements of the corresponding criteria list in the same order (so of the same
length); an empty criteria list gives an empty rule list, which holds no zero address.
`FilterExecutorUpdated` and `FilterTreasuryUpdated` do the same with two rule lists, and
`FilterSwapTargetsUpdated` passes no rule list. -/
theorem Filter_rule_lists (contract : BoundContract) (opts : Option FilterOpts)
    (user inputToken outputToken oldExecutor newExecutor oldTreasury newTreasury :
      List Address) :
    (FilterIntentExecuted contract opts user inputToken outputToken).calls =
        [⟨opts, "IntentExecuted",
          [user.map Any.address, inputToken.map Any.address,
           outputToken.map Any.address]⟩] ∧
    (FilterExecutorUpdated contract opts oldExecutor newExecutor).calls =
        [⟨opts, "ExecutorUpdated",
          [oldExecutor.map Any.address, newExecutor.map Any.address]⟩] ∧
    (FilterTreasuryUpdated contract opts oldTreasury newTreasury).calls =
        [⟨opts, "TreasuryUpdated",
          [oldTreasury.map Any.address, newTreasury.map Any.address]⟩] ∧
    (FilterSwapTargetsUpdated contract opts).calls = [⟨opts, "SwapTargetsUpdated", []⟩] ∧
    (∀ items : List Address, (appendRule items).length = items.length ∧
      ∀ i : Nat, (appendRule items)[i]? = (items[i]?).map Any.address) ∧
    (appendRule [] = [] ∧ Any.address 0 ∉ appendRule []) := by
  refine ⟨?_, ?_, ?_, ?_, ?_, rfl, by simp [appendRule]⟩
  · simp only [FilterIntentExecuted, filterLogsInto_calls, appendRule_eq_map]
  · simp only [FilterExecutorUpdated, filterLogsInto_calls, appendRule_eq_map]
  · simp only [FilterTreasuryUpdated, filterLogsInto_calls, appendRule_eq_map]
  · simp only [FilterSwapTargetsUpdated, filterLogsInto_calls]
  · intro items
    rw [appendRule_eq_map]
    exact ⟨by simp, fun i => by simp⟩

/-! ## The theorems at the sample backend -/

/-- C1 at the sample iterator: two buffered logs, four calls, with the select taking the
upstream case in the first and third call. -/
theorem Next_delivers_logs_in_order_witness :
    ∃ delivered after,
      sampleIterator.NextSeq [SelectCase.err, SelectCase.logs, SelectCase.err,
        SelectCase.logs] = some (delivered ++ after) ∧
      delivered.map (fun r => (r.1, r.2.Event)) =
        [sampleLog1, sampleLog2].map (fun l => (true, some (Record.setRaw
          (sampleIterator.contract.UnpackLog .ExecutorUpdated
            (Record.new .ExecutorUpdated) sampleIterator.event l).1 l))) ∧
      delivered.map (fun r => r.2.Event.map Record.getRaw) =
        [sampleLog1, sampleLog2].map some ∧
      after.length = 1 + 1 ∧
      (∀ r ∈ after, r.1 = false) ∧
      ∀ r ∈ delivered ++ after, r.2.Error = none :=
  Next_delivers_logs_in_order .ExecutorUpdated [sampleLog1, sampleLog2] sampleIterator
    [SelectCase.err, SelectCase.logs, SelectCase.err, SelectCase.logs] 1
    rfl rfl rfl (by intro e he; cases he) (by decide) rfl

/-- C2 at the truncated log: the call returns false and `Error()` is the decode error. -/
theorem Next_decode_error_retrievable_witness :
    ∃ it1, truncatedIterator.Next SelectCase.logs = some (false, it1) ∧
      it1.Error = some ⟨"topic count mismatch"⟩ :=
  Next_decode_error_retrievable .IntentExecuted SelectCase.logs truncatedIterator
    truncatedLog ⟨[], false⟩
    { Record.new .IntentExecuted with InputAmt := some 10, UserAmtOut := some 9,
                                      Received := some 11, Surplus := some 2 }
    ⟨"topic count mismatch"⟩ rfl rfl (Or.inr (Or.inl rfl)) rfl

/-- C3, the claim as stated fails: the truncated log does not decode, `Next` returns
false, and `Event`, nil before the call, afterwards holds a record carrying the four
amounts of the failing log. -/
theorem Next_decode_failure_changes_Event :
    truncatedIterator.Event = none ∧
    (truncatedIterator.contract.UnpackLog .IntentExecuted (Record.new .IntentExecuted)
      truncatedIterator.event truncatedLog).2 = some ⟨"topic count mismatch"⟩ ∧
    ∃ it1, truncatedIterator.Next SelectCase.logs = some (false, it1) ∧
      it1.Event ≠ truncatedIterator.Event ∧
      it1.Event =
        some { User := 0, InputToken := 0, OutputToken := 0, InputAmt := some 10,
               UserAmtOut := some 9, Received := some 11, Surplus := some 2,
               Raw := Log.zero } := by
  refine ⟨rfl, rfl, ?_⟩
  rw [Iterator.Next_of_active SelectCase.logs truncatedIterator rfl rfl]
  refine ⟨_, rfl, ?_, rfl⟩
  intro h
  cases h

/-- C3 as amended, at the truncated log. -/
theorem Next_decode_failure_leaves_unpack_target_witness :
    ∃ it1, truncatedIterator.Next SelectCase.logs = some (false, it1) ∧
      it1.Event =
        some { Record.new .IntentExecuted with InputAmt := some 10, UserAmtOut := some 9,
                                               Received := some 11, Surplus := some 2 } ∧
      it1.fail = some ⟨"topic count mismatch"⟩ ∧ it1.logs = ⟨[], false⟩ :=
  Next_decode_failure_leaves_unpack_target .IntentExecuted SelectCase.logs truncatedIterator
    truncatedLog ⟨[], false⟩
    { Record.new .IntentExecuted with InputAmt := some 10, UserAmtOut := some 9,
                                      Received := some 11, Surplus := some 2 }
    ⟨"topic count mismatch"⟩ rfl rfl (Or.inr (Or.inl rfl)) rfl

/-- C4 at a failed iterator that still has a log buffered. -/
theorem Next_failed_is_absorbing_witness :
    failedIterator.fail ≠ none ∧
    ((∀ pick, failedIterator.Next pick = some (false, failedIterator)) ∧
      (∀ pick, ∀ r ∈ failedIterator.Next pick,
        r.2.Error = failedIterator.Error ∧ r.2.logs = failedIterator.logs ∧
        r.2.sub = failedIterator.sub ∧ r.2.Event = failedIterator.Event ∧
        r.2.done = failedIterator.done) ∧
      ∀ picks : List SelectCase,
        failedIterator.NextSeq picks = some (picks.map (fun _ => (false, failedIterator)))) :=
  ⟨by simp [failedIterator],
    Next_failed_is_absorbing .ExecutorUpdated failedIterator (by simp [failedIterator])⟩

/-- C5 at the interrupted iterator: the pending error fails the call although a decodable
log is buffered. -/
theorem Next_upstream_error_fails_witness :
    interruptedIterator.Next SelectCase.err =
        some (false, { interruptedIterator with
          sub := { interruptedIterator.sub with errc := ⟨[], false⟩ }, done := true,
          fail := some ⟨"connection lost"⟩ }) ∧
      ∀ r ∈ interruptedIterator.Next SelectCase.err, r.1 = false ∧
        r.2.Error = some ⟨"connection lost"⟩ ∧ r.2.logs = interruptedIterator.logs ∧
        r.2.Event = interruptedIterator.Event :=
  Next_upstream_error_fails .ExecutorUpdated SelectCase.err interruptedIterator
    ⟨"connection lost"⟩ ⟨[], false⟩ rfl rfl rfl (Or.inl rfl)

/-- C6, the claim as stated fails: the iterator is Active, a decodable log is buffered and
the upstream reports an error; the call in which the error is detected returns false with
that error, and the buffered log is still in the channel, undelivered. -/
theorem Next_error_not_deferred :
    (interruptedIterator.done = false ∧ interruptedIterator.fail = none) ∧
    interruptedIterator.logs.buf = [sampleLog1] ∧
    (interruptedIterator.contract.UnpackLog .ExecutorUpdated (Record.new .ExecutorUpdated)
      interruptedIterator.event sampleLog1).2 = none ∧
    interruptedIterator.sub.errc.recv none = some (some ⟨"connection lost"⟩, ⟨[], false⟩) ∧
    ∃ it1, interruptedIterator.Next SelectCase.err = some (false, it1) ∧
      it1.Error = some ⟨"connection lost"⟩ ∧ it1.logs.buf = [sampleLog1] ∧
      it1.Event = none := by
  refine ⟨⟨rfl, rfl⟩, rfl, rfl, rfl, ?_⟩
  rw [Iterator.Next_of_active SelectCase.err interruptedIterator rfl rfl]
  refine ⟨{ interruptedIterator with
    sub := { interruptedIterator.sub with errc := ⟨[], false⟩ }, done := true,
    fail := some ⟨"connection lost"⟩ }, ?_, rfl, rfl, rfl⟩
  exact Iterator.Next_of_fail SelectCase.err _ (by simp)

/-- C6 as amended, at the interrupted iterator. -/
theorem Next_upstream_case_retry_witness :
    interruptedIterator.Next SelectCase.err =
        some (false, { interruptedIterator with
          sub := { interruptedIterator.sub with errc := ⟨[], false⟩ }, done := true,
          fail := some ⟨"connection lost"⟩ }) ∧
      interruptedIterator.Next SelectCase.logs =
        some (true, { interruptedIterator with
          logs := ⟨[], false⟩,
          Event := some (Record.setRaw (k := .ExecutorUpdated)
            { OldExecutor := 1, NewExecutor := 2, Raw := Log.zero } sampleLog1) }) :=
  Next_upstream_case_retry .ExecutorUpdated interruptedIterator sampleLog1 ⟨[], false⟩
    { OldExecutor := 1, NewExecutor := 2, Raw := Log.zero } (some ⟨"connection lost"⟩)
    ⟨[], false⟩ rfl rfl rfl rfl rfl

/-- C7 at the sample iterator: the subscription has ended, the first call already drains. -/
theorem Next_upstream_end_drains_witness :
    sampleIterator.Next SelectCase.err =
      some (true, { sampleIterator with
        sub := { sampleIterator.sub with errc := ⟨[], true⟩ }, done := true, fail := none,
        logs := ⟨[sampleLog2], false⟩,
        Event := some (Record.setRaw (k := .ExecutorUpdated)
          { OldExecutor := 1, NewExecutor := 2, Raw := Log.zero } sampleLog1) }) :=
  (Next_upstream_end_drains .ExecutorUpdated SelectCase.err sampleIterator ⟨[], true⟩
    rfl rfl rfl (Or.inl rfl)).2.1 sampleLog1 ⟨[sampleLog2], false⟩
    { OldExecutor := 1, NewExecutor := 2, Raw := Log.zero } rfl rfl

/-! ## Backend errors and fresh iterators (C11) -/

/-- What the shared tail of the `FilterX` methods returns, by the result of `FilterLogs`. -/
theorem filterLogsInto_result (k : EventKind) (contract : BoundContract)
    (opts : Option FilterOpts) (name : String) (query : List (List Any)) :
    (filterLogsInto k contract opts name query).it =
        (match contract.FilterLogs opts name query with
         | .error _ => none
         | .ok (logs, sub) =>
             some { Event := none, contract := contract, event := name, logs := logs,
                    sub := sub, done := false, fail := none }) ∧
      (filterLogsInto k contract opts name query).err =
        (match contract.FilterLogs opts name query with
         | .error e => some e
         | .ok _ => none) := by
  unfold filterLogsInto
  rcases contract.FilterLogs opts name query with e | ⟨logs, sub⟩ <;> exact ⟨rfl, rfl⟩

/-- What the shared tail of the `WatchX` methods returns, by the result of `WatchLogs`. -/
theorem watchLogsInto_result (k : EventKind) (contract : BoundContract)
    (opts : Option WatchOpts) (name : String) (query : List (List Any)) :
    (watchLogsInto k contract opts name query).task =
        (match contract.WatchLogs opts name query with
         | .error _ => none
         | .ok (logs, sub) =>
             some { contract := contract, name := name, logs := logs, sub := sub,
                    sink := [], pc := .outer }) ∧
      (watchLogsInto k contract opts name query).err =
        (match contract.WatchLogs opts name query with
         | .error e => some e
         | .ok _ => none) := by
  unfold watchLogsInto
  rcases contract.WatchLogs opts name query with e | ⟨logs, sub⟩ <;> exact ⟨rfl, rfl⟩

/-- C11: each `FilterX` and `WatchX` returns `(nil, e)` when the backend call fails with
`e`, with `e` as the backend gave it and neither iterator nor task created; when
`FilterLogs` succeeds, `FilterX` returns a nil error and an iterator with `Event` nil,
`done` false and `fail` nil that holds the log channel and the subscription the backend
returned; when `WatchLogs` succeeds, `WatchX` returns a nil error and the task at its
outer select, holding the backend channel and subscription, with nothing sent. -/
theorem Filter_Watch_backend_result (contract : BoundContract) (opts : Option FilterOpts)
    (wopts : Option WatchOpts)
    (user inputToken outputToken oldExecutor newExecutor oldTreasury newTreasury :
      List Address) :
    ((FilterExecutorUpdated contract opts oldExecutor newExecutor).it =
        (match contract.FilterLogs opts "ExecutorUpdated"
            [oldExecutor.map Any.address, newExecutor.map Any.address] with
         | .error _ => none
         | .ok (logs, sub) =>
             some { Event := none, contract := contract, event := "ExecutorUpdated",
                    logs := logs, sub := sub, done := false, fail := none }) ∧
      (FilterExecutorUpdated contract opts oldExecutor newExecutor).err =
        (match contract.FilterLogs opts "ExecutorUpdated"
            [oldExecutor.map Any.address, newExecutor.map Any.address] with
         | .error e => some e
         | .ok _ => none)) ∧
    ((FilterIntentExecuted contract opts user inputToken outputToken).it =
        (match contract.FilterLogs opts "IntentExecuted"
            [user.map Any.address, inputToken.map Any.address,
             outputToken.map Any.address] with
         | .error _ => none
         | .ok (logs, sub) =>
             some { Event := none, contract := contract, event := "IntentExecuted",
                    logs := logs, sub := sub, done := false, fail := none }) ∧
      (FilterIntentExecuted contract opts user inputToken outputToken).err =
        (match contract.FilterLogs opts "IntentExecuted"
            [user.map Any.address, inputToken.map Any.address,
             outputToken.map Any.address] with
         | .error e => some e
         | .ok _ => none)) ∧
    ((FilterSwapTargetsUpdated contract opts).it =
        (match contract.FilterLogs opts "SwapTargetsUpdated" [] with
         | .error _ => none
         | .ok (logs, sub) =>
             some { Event := none, contract := contract, event := "SwapTargetsUpdated",
                    logs := logs, sub := sub, done := false, fail := none }) ∧
      (FilterSwapTargetsUpdated contract opts).err =
        (match contract.FilterLogs opts "SwapTargetsUpdated" [] with
         | .error e => some e
         | .ok _ => none)) ∧
    ((FilterTreasuryUpdated contract opts oldTreasury newTreasury).it =
        (match contract.FilterLogs opts "TreasuryUpdated"
            [oldTreasury.map Any.address, newTreasury.map Any.address] with
         | .error _ => none
         | .ok (logs, sub) =>
             some { Event := none, contract := contract, event := "TreasuryUpdated",
                    logs := logs, sub := sub, done := false, fail := none }) ∧
      (FilterTreasuryUpdated contract opts oldTreasury newTreasury).err =
        (match contract.FilterLogs opts "TreasuryUpdated"
            [oldTreasury.map Any.address, newTreasury.map Any.address] with
         | .error e => some e
         | .ok _ => none)) ∧
    ((WatchExecutorUpdated contract wopts oldExecutor newExecutor).task =
        (match contract.WatchLogs wopts "ExecutorUpdated"
            [oldExecutor.map Any.address, newExecutor.map Any.address] with
         | .error _ => none
         | .ok (logs, sub) =>
             some { contract := contract, name := "ExecutorUpdated", logs := logs,
                    sub := sub, sink := [], pc := .outer }) ∧
      (WatchExecutorUpdated contract wopts oldExecutor newExecutor).err =
        (match contract.WatchLogs wopts "ExecutorUpdated"
            [oldExecutor.map Any.address, newExecutor.map Any.address] with
         | .error e => some e
         | .ok _ => none)) ∧
    ((WatchIntentExecuted contract wopts user inputToken outputToken).task =
        (match contract.WatchLogs wopts "IntentExecuted"
            [user.map Any.address, inputToken.map Any.address,
             outputToken.map Any.address] with
         | .error _ => none
         | .ok (logs, sub) =>
             some { contract := contract, name := "IntentExecuted", logs := logs,
                    sub := sub, sink := [], pc := .outer }) ∧
      (WatchIntentExecuted contract wopts user inputToken outputToken).err =
        (match contract.WatchLogs wopts "IntentExecuted"
            [user.map Any.address, inputToken.map Any.address,
             outputToken.map Any.address] with
         | .error e => some e
         | .ok _ => none)) ∧
    ((WatchSwapTargetsUpdated contract wopts).task =
        (match contract.WatchLogs wopts "SwapTargetsUpdated" [] with
         | .error _ => none
         | .ok (logs, sub) =>
             some { contract := contract, name := "SwapTargetsUpdated", logs := logs,
                    sub := sub, sink := [], pc := .outer }) ∧
      (WatchSwapTargetsUpdated contract wopts).err =
        (match contract.WatchLogs wopts "SwapTargetsUpdated" [] with
         | .error e => some e
         | .ok _ => none)) ∧
    ((WatchTreasuryUpdated contract wopts oldTreasury newTreasury).task =
        (match contract.WatchLogs wopts "TreasuryUpdated"
            [oldTreasury.map Any.address, newTreasury.map Any.address] with
         | .error _ => none
         | .ok (logs, sub) =>
             some { contract := contract, name := "TreasuryUpdated", logs := logs,
                    sub := sub, sink := [], pc := .outer }) ∧
      (WatchTreasuryUpdated contract wopts oldTreasury newTreasury).err =
        (match contract.WatchLogs wopts "TreasuryUpdated"
            [oldTreasury.map Any.address, newTreasury.map Any.address] with
         | .error e => some e
         | .ok _ => none)) := by
  refine ⟨?_, ?_, ?_, ?_, ?_, ?_, ?_, ?_⟩
  · simpa only [FilterExecutorUpdated, appendRule_eq_map] using filterLogsInto_result _ _ _ _ _
  · simpa only [FilterIntentExecuted, appendRule_eq_map] using filterLogsInto_result _ _ _ _ _
  · simpa only [FilterSwapTargetsUpdated] using filterLogsInto_result _ _ _ _ _
  · simpa only [FilterTreasuryUpdated, appendRule_eq_map] using filterLogsInto_result _ _ _ _ _
  · simpa only [WatchExecutorUpdated, appendRule_eq_map] using watchLogsInto_result _ _ _ _ _
  · simpa only [WatchIntentExecuted, appendRule_eq_map] using watchLogsInto_result _ _ _ _ _
  · simpa only [WatchSwapTargetsUpdated] using watchLogsInto_result _ _ _ _ _
  · simpa only [WatchTreasuryUpdated, appendRule_eq_map] using watchLogsInto_result _ _ _ _ _

/-! ## Transactor wrappers (C12) and sessions (C13) -/

/-- C12: each of the six transactor wrappers makes exactly one `Transact` call, with the
options of the caller, its fixed method name and the arguments of the caller unmodified
and in the declared order, and returns the transaction handle and the error of that call
as they are, for every value of the arguments. -/
theorem Transactor_wrappers_single_call (t : Ifastsettlementv3Transactor)
    (opts : Option TransactOpts) (intent : IFastSettlementV3Intent)
    (swapData : IFastSettlementV3SwapCall) (signature : Bytes) (token : Address)
    (amount : Option Int) (newExecutor newTreasury : Address) (targets : List Address)
    (allowed : List Bool) :
    (t.ExecuteWithETH opts intent swapData =
      { tx := (t.contract.Transact opts "executeWithETH"
                [Any.intent intent, Any.swapCall swapData]).1,
        err := (t.contract.Transact opts "executeWithETH"
                [Any.intent intent, Any.swapCall swapData]).2,
        calls := [⟨opts, "executeWithETH", [Any.intent intent, Any.swapCall swapData]⟩] }) ∧
    (t.ExecuteWithPermit opts intent signature swapData =
      { tx := (t.contract.Transact opts "executeWithPermit"
                [Any.intent intent, Any.bytes signature, Any.swapCall swapData]).1,
        err := (t.contract.Transact opts "executeWithPermit"
                [Any.intent intent, Any.bytes signature, Any.swapCall swapData]).2,
        calls := [⟨opts, "executeWithPermit",
                   [Any.intent intent, Any.bytes signature, Any.swapCall swapData]⟩] }) ∧
    (t.RescueTokens opts token amount =
      { tx := (t.contract.Transact opts "rescueTokens"
                [Any.address token, Any.bigInt amount]).1,
        err := (t.contract.Transact opts "rescueTokens"
                [Any.address token, Any.bigInt amount]).2,
        calls := [⟨opts, "rescueTokens", [Any.address token, Any.bigInt amount]⟩] }) ∧
    (t.SetExecutor opts newExecutor =
      { tx := (t.contract.Transact opts "setExecutor" [Any.address newExecutor]).1,
        err := (t.contract.Transact opts "setExecutor" [Any.address newExecutor]).2,
        calls := [⟨opts, "setExecutor", [Any.address newExecutor]⟩] }) ∧
    (t.SetSwapTargets opts targets allowed =
      { tx := (t.contract.Transact opts "setSwapTargets"
                [Any.addressSlice targets, Any.boolSlice allowed]).1,
        err := (t.contract.Transact opts "setSwapTargets"
                [Any.addressSlice targets, Any.boolSlice allowed]).2,
        calls := [⟨opts, "setSwapTargets",
                   [Any.addressSlice targets, Any.boolSlice allowed]⟩] }) ∧
    (t.SetTreasury opts newTreasury =
      { tx := (t.contract.Transact opts "setTreasury" [Any.address newTreasury]).1,
        err := (t.contract.Transact opts "setTreasury" [Any.address newTreasury]).2,
        calls := [⟨opts, "setTreasury", [Any.address newTreasury]⟩] }) :=
  ⟨rfl, rfl, rfl, rfl, rfl, rfl⟩

/-- C13: for each of the six methods, the session wrapper and the transactor session
wrapper return what the transactor wrapper of the session contract returns when called
with the options stored in the session and the same arguments; the one `Transact` call
they make carries exactly these options and arguments. -/
theorem Session_wrappers_refine_transactor (s : Ifastsettlementv3Session)
    (ts : Ifastsettlementv3TransactorSession) (intent : IFastSettlementV3Intent)
    (swapData : IFastSettlementV3SwapCall) (signature : Bytes) (token : Address)
    (amount : Option Int) (newExecutor newTreasury : Address) (targets : List Address)
    (allowed : List Bool) :
    (s.ExecuteWithETH intent swapData =
        s.Contract.Ifastsettlementv3Transactor.ExecuteWithETH (some s.TransactOpts) intent
          swapData ∧
      ts.ExecuteWithETH intent swapData =
        ts.Contract.ExecuteWithETH (some ts.TransactOpts) intent swapData ∧
      (s.ExecuteWithETH intent swapData).calls =
        [⟨some s.TransactOpts, "executeWithETH",
          [Any.intent intent, Any.swapCall swapData]⟩] ∧
      (ts.ExecuteWithETH intent swapData).calls =
        [⟨some ts.TransactOpts, "executeWithETH",
          [Any.intent intent, Any.swapCall swapData]⟩]) ∧
    (s.ExecuteWithPermit intent signature swapData =
        s.Contract.Ifastsettlementv3Transactor.ExecuteWithPermit (some s.TransactOpts)
          intent signature swapData ∧
      ts.ExecuteWithPermit intent signature swapData =
        ts.Contract.ExecuteWithPermit (some ts.TransactOpts) intent signature swapData ∧
      (s.ExecuteWithPermit intent signature swapData).calls =
        [⟨some s.TransactOpts, "executeWithPermit",
          [Any.intent intent, Any.bytes signature, Any.swapCall swapData]⟩] ∧
      (ts.ExecuteWithPermit intent signature swapData).calls =
        [⟨some ts.TransactOpts, "executeWithPermit",
          [Any.intent intent, Any.bytes signature, Any.swapCall swapData]⟩]) ∧
    (s.RescueTokens token amount =
        s.Contract.Ifastsettlementv3Transactor.RescueTokens (some s.TransactOpts) token
          amount ∧
      ts.RescueTokens token amount =
        ts.Contract.RescueTokens (some ts.TransactOpts) token amount ∧
      (s.RescueTokens token amount).calls =
        [⟨some s.TransactOpts, "rescueTokens", [Any.address token, Any.bigInt amount]⟩] ∧
      (ts.RescueTokens token amount).calls =
        [⟨some ts.TransactOpts, "rescueTokens", [Any.address token, Any.bigInt amount]⟩]) ∧
    (s.SetExecutor newExecutor =
        s.Contract.Ifastsettlementv3Transactor.SetExecutor (some s.TransactOpts)
          newExecutor ∧
      ts.SetExecutor newExecutor =
        ts.Contract.SetExecutor (some ts.TransactOpts) newExecutor ∧
      (s.SetExecutor newExecutor).calls =
        [⟨some s.TransactOpts, "setExecutor", [Any.address newExecutor]⟩] ∧
      (ts.SetExecutor newExecutor).calls =
        [⟨some ts.TransactOpts, "setExecutor", [Any.address newExecutor]⟩]) ∧
    (s.SetSwapTargets targets allowed =
        s.Contract.Ifastsettlementv3Transactor.SetSwapTargets (some s.TransactOpts) targets
          allowed ∧
      ts.SetSwapTargets targets allowed =
        ts.Contract.SetSwapTargets (some ts.TransactOpts) targets allowed ∧
      (s.SetSwapTargets targets allowed).calls =
        [⟨some s.TransactOpts, "setSwapTargets",
          [Any.addressSlice targets, Any.boolSlice allowed]⟩] ∧
      (ts.SetSwapTargets targets allowed).calls =
        [⟨some ts.TransactOpts, "setSwapTargets",
          [Any.addressSlice targets, Any.boolSlice allowed]⟩]) ∧
    (s.SetTreasury newTreasury =
        s.Contract.Ifastsettlementv3Transactor.SetTreasury (some s.TransactOpts)
          newTreasury ∧
      ts.SetTreasury newTreasury =
        ts.Contract.SetTreasury (some ts.TransactOpts) newTreasury ∧
      (s.SetTreasury newTreasury).calls =
        [⟨some s.TransactOpts, "setTreasury", [Any.address newTreasury]⟩] ∧
      (ts.SetTreasury newTreasury).calls =
        [⟨some ts.TransactOpts, "setTreasury", [Any.address newTreasury]⟩]) :=
  ⟨⟨rfl, rfl, rfl, rfl⟩, ⟨rfl, rfl, rfl, rfl⟩, ⟨rfl, rfl, rfl, rfl⟩, ⟨rfl, rfl, rfl, rfl⟩,
    ⟨rfl, rfl, rfl, rfl⟩, ⟨rfl, rfl, rfl, rfl⟩⟩

/-! ## Constructors (C14) -/

/-- The binder fails exactly when `GetAbi` fails, with the same error, and otherwise binds
the parsed ABI to the address and the three capabilities it was given. -/
theorem bindIfastsettlementv3_eq (lib : BindLibrary) (address : Address)
    (caller transactor filterer : Option Backend) :
    bindIfastsettlementv3 lib address caller transactor filterer =
      (lib.GetAbi Ifastsettlementv3MetaData).map
        (fun parsed => lib.NewBoundContract address parsed caller transactor filterer) := by
  unfold bindIfastsettlementv3
  rcases lib.GetAbi Ifastsettlementv3MetaData with e | parsed <;> rfl

/-- C14: each of the four constructors returns `(nil, e)` exactly when parsing the
embedded ABI fails with `e`, for every address and backend. When the parse succeeds,
`NewIfastsettlementv3` returns an instance whose three facets hold one and the same bound
contract, made from the address, the parsed ABI and the backend in all three roles; each
single-facet constructor returns a facet whose bound contract is made from the address,
the parsed ABI and the backend in its own role only, the other two being nil. -/
theorem Constructors_fail_iff_abi_fails (lib : BindLibrary) (address : Address)
    (backend : Option Backend) :
    (∀ e, (NewIfastsettlementv3 lib address backend = (none, some e) ↔
            lib.GetAbi Ifastsettlementv3MetaData = .error e) ∧
          (NewIfastsettlementv3Caller lib address backend = (none, some e) ↔
            lib.GetAbi Ifastsettlementv3MetaData = .error e) ∧
          (NewIfastsettlementv3Transactor lib address backend = (none, some e) ↔
            lib.GetAbi Ifastsettlementv3MetaData = .error e) ∧
          (NewIfastsettlementv3Filterer lib address backend = (none, some e) ↔
            lib.GetAbi Ifastsettlementv3MetaData = .error e)) ∧
    (∀ parsed, lib.GetAbi Ifastsettlementv3MetaData = .ok parsed →
      NewIfastsettlementv3 lib address backend =
        (some { Ifastsettlementv3Caller :=
                  { contract := lib.NewBoundContract address parsed backend backend backend },
                Ifastsettlementv3Transactor :=
                  { contract := lib.NewBoundContract address parsed backend backend backend },
                Ifastsettlementv3Filterer :=
                  { contract := lib.NewBoundContract address parsed backend backend
                      backend } }, none) ∧
      NewIfastsettlementv3Caller lib address backend =
        (some { contract := lib.NewBoundContract address parsed backend none none }, none) ∧
      NewIfastsettlementv3Transactor lib address backend =
        (some { contract := lib.NewBoundContract address parsed none backend none }, none) ∧
      NewIfastsettlementv3Filterer lib address backend =
        (some { contract := lib.NewBoundContract address parsed none none backend },
          none)) := by
  constructor
  · intro e
    simp only [NewIfastsettlementv3, NewIfastsettlementv3Caller,
      NewIfastsettlementv3Transactor, NewIfastsettlementv3Filterer, bindIfastsettlementv3_eq]
    rcases lib.GetAbi Ifastsettlementv3MetaData with e1 | parsed <;>
      simp [Except.map]
  · intro parsed h
    simp [NewIfastsettlementv3, NewIfastsettlementv3Caller,
      NewIfastsettlementv3Transactor, NewIfastsettlementv3Filterer, bindIfastsettlementv3_eq,
      h, Except.map]


/-! ## The declared names and their uses (C15) -/

/-- The iterator a `FilterX` tail returns stores the event name and the contract it was
given. -/
theorem filterLogsInto_event (k : EventKind) (contract : BoundContract)
    (opts : Option FilterOpts) (name : String) (query : List (List Any)) :
    ∀ it ∈ (filterLogsInto k contract opts name query).it,
      it.event = name ∧ it.contract = contract := by
  unfold filterLogsInto
  rcases contract.FilterLogs opts name query with e | ⟨logs, sub⟩
  · intro it h; cases h
  · intro it h
    cases h
    exact ⟨rfl, rfl⟩

/-- The task a `WatchX` tail returns stores the event name and the contract it was
given. -/
theorem watchLogsInto_name (k : EventKind) (contract : BoundContract)
    (opts : Option WatchOpts) (name : String) (query : List (List Any)) :
    ∀ t ∈ (watchLogsInto k contract opts name query).task,
      t.name = name ∧ t.contract = contract := by
  unfold watchLogsInto
  rcases contract.WatchLogs opts name query with e | ⟨logs, sub⟩
  · intro t h; cases h
  · intro t h
    cases h
    exact ⟨rfl, rfl⟩

/-- The shared `WatchX` tail makes exactly one `WatchLogs` call, with the arguments it was
given. -/
theorem watchLogsInto_calls (k : EventKind) (contract : BoundContract)
    (opts : Option WatchOpts) (name : String) (query : List (List Any)) :
    (watchLogsInto k contract opts name query).calls = [⟨opts, name, query⟩] := by
  unfold watchLogsInto
  rcases contract.WatchLogs opts name query with e | ⟨logs, sub⟩ <;> rfl

/-- C15 as amended: the embedded ABI declares exactly the six functions executeWithETH,
executeWithPermit, rescueTokens, setExecutor, setSwapTargets, setTreasury and exactly the
four events ExecutorUpdated, IntentExecuted, SwapTargetsUpdated, TreasuryUpdated. The
method names the six typed transactor wrappers pass to `Transact` are, one for one, the
declared function names; the event names the four `FilterX` pass to `FilterLogs`, the four
`WatchX` pass to `WatchLogs`, and the names handed to `UnpackLog` (the literal of each
`ParseX`, the name stored in the iterator a `FilterX` returns and in the task a `WatchX`
returns) are, one for one, the declared event names. The two low-level `Transact`
wrappers (of `Ifastsettlementv3Raw` and `Ifastsettlementv3TransactorRaw`) make one
`Transact` call with the method name, the options and the parameters of the caller, be
the name declared or not. -/
theorem ABI_declared_names_are_the_names_used (contract : BoundContract)
    (t : Ifastsettlementv3Transactor) (raw : Ifastsettlementv3Raw)
    (traw : Ifastsettlementv3TransactorRaw) (opts : Option TransactOpts)
    (fopts : Option FilterOpts) (wopts : Option WatchOpts) (intent : IFastSettlementV3Intent)
    (swapData : IFastSettlementV3SwapCall) (signature : Bytes) (amount : Option Int)
    (a b c : List Address) (x : Address) (allowed : List Bool) :
    abiNames "function" Ifastsettlementv3MetaData.ABI =
      ["executeWithETH", "executeWithPermit", "rescueTokens", "setExecutor",
       "setSwapTargets", "setTreasury"] ∧
    abiNames "event" Ifastsettlementv3MetaData.ABI =
      ["ExecutorUpdated", "IntentExecuted", "SwapTargetsUpdated", "TreasuryUpdated"] ∧
    ((t.ExecuteWithETH opts intent swapData).calls ++
        (t.ExecuteWithPermit opts intent signature swapData).calls ++
        (t.RescueTokens opts x amount).calls ++ (t.SetExecutor opts x).calls ++
        (t.SetSwapTargets opts a allowed).calls ++ (t.SetTreasury opts x).calls).map
        (fun call => call.method) =
      abiNames "function" Ifastsettlementv3MetaData.ABI ∧
    ((FilterExecutorUpdated contract fopts a b).calls ++
        (FilterIntentExecuted contract fopts a b c).calls ++
        (FilterSwapTargetsUpdated contract fopts).calls ++
        (FilterTreasuryUpdated contract fopts a b).calls).map (fun call => call.name) =
      abiNames "event" Ifastsettlementv3MetaData.ABI ∧
    ((WatchExecutorUpdated contract wopts a b).calls ++
        (WatchIntentExecuted contract wopts a b c).calls ++
        (WatchSwapTargetsUpdated contract wopts).calls ++
        (WatchTreasuryUpdated contract wopts a b).calls).map (fun call => call.name) =
      abiNames "event" Ifastsettlementv3MetaData.ABI ∧
    [EventKind.ExecutorUpdated, EventKind.IntentExecuted, EventKind.SwapTargetsUpdated,
        EventKind.TreasuryUpdated].map EventKind.name =
      abiNames "event" Ifastsettlementv3MetaData.ABI ∧
    (∀ k log, Parse k contract log =
      match contract.UnpackLog k (Record.new k) k.name log with
      | (_, some err) => (none, some err)
      | (out, none) => (some (Record.setRaw out log), none)) ∧
    ((∀ it ∈ (FilterExecutorUpdated contract fopts a b).it, it.event = "ExecutorUpdated") ∧
      (∀ it ∈ (FilterIntentExecuted contract fopts a b c).it, it.event = "IntentExecuted") ∧
      (∀ it ∈ (FilterSwapTargetsUpdated contract fopts).it,
        it.event = "SwapTargetsUpdated") ∧
      (∀ it ∈ (FilterTreasuryUpdated contract fopts a b).it,
        it.event = "TreasuryUpdated")) ∧
    ((∀ w ∈ (WatchExecutorUpdated contract wopts a b).task, w.name = "ExecutorUpdated") ∧
      (∀ w ∈ (WatchIntentExecuted contract wopts a b c).task, w.name = "IntentExecuted") ∧
      (∀ w ∈ (WatchSwapTargetsUpdated contract wopts).task,
        w.name = "SwapTargetsUpdated") ∧
      (∀ w ∈ (WatchTreasuryUpdated contract wopts a b).task,
        w.name = "TreasuryUpdated")) ∧
    (∀ (method : String) (params : List Any),
      raw.Transact opts method params =
        { tx := (raw.Contract.Ifastsettlementv3Transactor.contract.Transact opts method
                  params).1,
          err := (raw.Contract.Ifastsettlementv3Transactor.contract.Transact opts method
                  params).2,
          calls := [⟨opts, method, params⟩] } ∧
      traw.Transact opts method params =
        { tx := (traw.Contract.contract.Transact opts method params).1,
          err := (traw.Contract.contract.Transact opts method params).2,
          calls := [⟨opts, method, params⟩] }) := by
  have hf : abiNames "function" Ifastsettlementv3MetaData.ABI =
      ["executeWithETH", "executeWithPermit", "rescueTokens", "setExecutor",
       "setSwapTargets", "setTreasury"] := by decide
  have he : abiNames "event" Ifastsettlementv3MetaData.ABI =
      ["ExecutorUpdated", "IntentExecuted", "SwapTargetsUpdated", "TreasuryUpdated"] := by
    decide
  refine ⟨hf, he, ?_, ?_, ?_, ?_, fun k log => Parse_eq k contract log, ⟨?_, ?_, ?_, ?_⟩,
    ⟨?_, ?_, ?_, ?_⟩, fun _ _ => ⟨rfl, rfl⟩⟩
  · rw [hf]; rfl
  · rw [he]
    simp only [FilterExecutorUpdated, FilterIntentExecuted, FilterSwapTargetsUpdated,
      FilterTreasuryUpdated, filterLogsInto_calls]
    rfl
  · rw [he]
    simp only [WatchExecutorUpdated, WatchIntentExecuted, WatchSwapTargetsUpdated,
      WatchTreasuryUpdated, watchLogsInto_calls]
    rfl
  · rw [he]; rfl
  · intro it h; exact (filterLogsInto_event _ _ _ _ _ it h).1
  · intro it h; exact (filterLogsInto_event _ _ _ _ _ it h).1
  · intro it h; exact (filterLogsInto_event _ _ _ _ _ it h).1
  · intro it h; exact (filterLogsInto_event _ _ _ _ _ it h).1
  · intro w h; exact (watchLogsInto_name _ _ _ _ _ w h).1
  · intro w h; exact (watchLogsInto_name _ _ _ _ _ w h).1
  · intro w h; exact (watchLogsInto_name _ _ _ _ _ w h).1
  · intro w h; exact (watchLogsInto_name _ _ _ _ _ w h).1

/-- C15, the claim as stated fails: the two low-level `Transact` wrappers hand the bound
contract the method name "mint", which the caller supplied and the ABI does not declare. -/
theorem Raw_Transact_passes_undeclared_method :
    (sampleRaw.Transact (some sampleOpts) "mint" []).calls =
        [⟨some sampleOpts, "mint", []⟩] ∧
      (sampleTransactorRaw.Transact (some sampleOpts) "mint" []).calls =
        [⟨some sampleOpts, "mint", []⟩] ∧
      "mint" ∉ abiNames "function" Ifastsettlementv3MetaData.ABI := by
  refine ⟨rfl, rfl, ?_⟩
  decide

/-! ## Go types against the ABI (C20) -/

/-- C20: the Go struct types mirror the embedded ABI field for field.
`IFastSettlementV3Intent` has exactly eight fields, which are, in order, the components
user, inputToken, outputToken, inputAmt, userAmtOut, recipient, deadline, nonce of the
`intent` parameter (of both functions that take it), `address` as `common.Address` and
`uint256` as the big integer `*big.Int`; `IFastSettlementV3SwapCall` has exactly the
fields to, value, data of the `swapData` parameter; each event record has exactly one
field per declared input of its event, in ABI order and of the corresponding type,
followed by `Raw`. A value of each struct is determined by its listed fields, so there is
no further field. -/
theorem Go_structs_mirror_ABI :
    (∀ x : IFastSettlementV3Intent,
      (x.fields.map (fun f => (f.1, some f.2.type)) =
        goFieldsOfAbi ((abiComponents "executeWithETH" "intent"
          Ifastsettlementv3MetaData.ABI).map (fun c => (c.name, c.type)))) ∧
      (x.fields.map (fun f => (f.1, some f.2.type)) =
        goFieldsOfAbi ((abiComponents "executeWithPermit" "intent"
          Ifastsettlementv3MetaData.ABI).map (fun c => (c.name, c.type)))) ∧
      x.fields.length = 8 ∧
      (abiComponents "executeWithETH" "intent" Ifastsettlementv3MetaData.ABI).map
          (fun c => c.name) =
        ["user", "inputToken", "outputToken", "inputAmt", "userAmtOut", "recipient",
         "deadline", "nonce"]) ∧
    (∀ x : IFastSettlementV3SwapCall,
      (x.fields.map (fun f => (f.1, some f.2.type)) =
        goFieldsOfAbi ((abiComponents "executeWithETH" "swapData"
          Ifastsettlementv3MetaData.ABI).map (fun c => (c.name, c.type)))) ∧
      (x.fields.map (fun f => (f.1, some f.2.type)) =
        goFieldsOfAbi ((abiComponents "executeWithPermit" "swapData"
          Ifastsettlementv3MetaData.ABI).map (fun c => (c.name, c.type)))) ∧
      (abiComponents "executeWithETH" "swapData" Ifastsettlementv3MetaData.ABI).map
          (fun c => c.name) = ["to", "value", "data"]) ∧
    (∀ x : Ifastsettlementv3ExecutorUpdated,
      x.fields.map (fun f => (f.1, some f.2.type)) =
        goFieldsOfAbi ((abiInputs "event" "ExecutorUpdated"
          Ifastsettlementv3MetaData.ABI).map (fun p => (p.name, p.type))) ++
          [("Raw", some GoType.Log)]) ∧
    (∀ x : Ifastsettlementv3IntentExecuted,
      x.fields.map (fun f => (f.1, some f.2.type)) =
        goFieldsOfAbi ((abiInputs "event" "IntentExecuted"
          Ifastsettlementv3MetaData.ABI).map (fun p => (p.name, p.type))) ++
          [("Raw", some GoType.Log)]) ∧
    (∀ x : Ifastsettlementv3SwapTargetsUpdated,
      x.fields.map (fun f => (f.1, some f.2.type)) =
        goFieldsOfAbi ((abiInputs "event" "SwapTargetsUpdated"
          Ifastsettlementv3MetaData.ABI).map (fun p => (p.name, p.type))) ++
          [("Raw", some GoType.Log)]) ∧
    (∀ x : Ifastsettlementv3TreasuryUpdated,
      x.fields.map (fun f => (f.1, some f.2.type)) =
        goFieldsOfAbi ((abiInputs "event" "TreasuryUpdated"
          Ifastsettlementv3MetaData.ABI).map (fun p => (p.name, p.type))) ++
          [("Raw", some GoType.Log)]) ∧
    ((∀ x y : IFastSettlementV3Intent, x.fields = y.fields → x = y) ∧
      (∀ x y : IFastSettlementV3SwapCall, x.fields = y.fields → x = y) ∧
      (∀ x y : Ifastsettlementv3ExecutorUpdated, x.fields = y.fields → x = y) ∧
      (∀ x y : Ifastsettlementv3IntentExecuted, x.fields = y.fields → x = y) ∧
      (∀ x y : Ifastsettlementv3SwapTargetsUpdated, x.fields = y.fields → x = y) ∧
      (∀ x y : Ifastsettlementv3TreasuryUpdated, x.fields = y.fields → x = y)) := by
  refine ⟨fun x => ⟨?_, ?_, rfl, by decide⟩, fun x => ⟨?_, ?_, by decide⟩, fun x => ?_,
    fun x => ?_, fun x => ?_, fun x => ?_, ⟨?_, ?_, ?_, ?_, ?_, ?_⟩⟩
  · exact Eq.trans rfl (by decide :
      [("User", some GoType.Address), ("InputToken", some GoType.Address),
       ("OutputToken", some GoType.Address), ("InputAmt", some GoType.BigInt),
       ("UserAmtOut", some GoType.BigInt), ("Recipient", some GoType.Address),
       ("Deadline", some GoType.BigInt), ("Nonce", some GoType.BigInt)] = _)
  · exact Eq.trans rfl (by decide :
      [("User", some GoType.Address), ("InputToken", some GoType.Address),
       ("OutputToken", some GoType.Address), ("InputAmt", some GoType.BigInt),
       ("UserAmtOut", some GoType.BigInt), ("Recipient", some GoType.Address),
       ("Deadline", some GoType.BigInt), ("Nonce", some GoType.BigInt)] = _)
  · exact Eq.trans rfl (by decide :
      [("To", some GoType.Address), ("Value", some GoType.BigInt),
       ("Data", some GoType.Bytes)] = _)
  · exact Eq.trans rfl (by decide :
      [("To", some GoType.Address), ("Value", some GoType.BigInt),
       ("Data", some GoType.Bytes)] = _)
  · exact Eq.trans rfl (by decide :
      [("OldExecutor", some GoType.Address), ("NewExecutor", some GoType.Address),
       ("Raw", some GoType.Log)] = _)
  · exact Eq.trans rfl (by decide :
      [("User", some GoType.Address), ("InputToken", some GoType.Address),
       ("OutputToken", some GoType.Address), ("InputAmt", some GoType.BigInt),
       ("UserAmtOut", some GoType.BigInt), ("Received", some GoType.BigInt),
       ("Surplus", some GoType.BigInt), ("Raw", some GoType.Log)] = _)
  · exact Eq.trans rfl (by decide :
      [("Targets", some GoType.AddressSlice), ("Allowed", some GoType.BoolSlice),
       ("Raw", some GoType.Log)] = _)
  · exact Eq.trans rfl (by decide :
      [("OldTreasury", some GoType.Address), ("NewTreasury", some GoType.Address),
       ("Raw", some GoType.Log)] = _)
  · intro x y h
    cases x; cases y
    simp [IFastSettlementV3Intent.fields] at h
    simp [h]
  · intro x y h
    cases x; cases y
    simp [IFastSettlementV3SwapCall.fields] at h
    simp [h]
  · intro x y h
    cases x; cases y
    simp [Ifastsettlementv3ExecutorUpdated.fields] at h
    simp [h]
  · intro x y h
    cases x; cases y
    simp [Ifastsettlementv3IntentExecuted.fields] at h
    simp [h]
  · intro x y h
    cases x; cases y
    simp [Ifastsettlementv3SwapTargetsUpdated.fields] at h
    simp [h]
  · intro x y h
    cases x; cases y
    simp [Ifastsettlementv3TreasuryUpdated.fields] at h
    simp [h]

/-! ## The watch task: release of the subscription (C16) -/

/-- A task that has returned takes no further select. -/
theorem WatchTask.step_of_returned {k : EventKind} (impl : SubscriptionImpl)
    (t : WatchTask k) (c : WatchCase) (h : t.pc.isReturned = true) :
    t.step impl c = none := by
  unfold WatchTask.step
  cases hp : t.pc with
  | returned e => rfl
  | outer => rw [hp] at h; cases h
  | inner ev => rw [hp] at h; cases h

/-- A run from a task that has returned is the empty run. -/
theorem WatchTask.run_of_returned {k : EventKind} (impl : SubscriptionImpl)
    (t t1 : WatchTask k) (cs : List WatchCase) (h : t.pc.isReturned = true)
    (hrun : t.run impl cs = some t1) : cs = [] ∧ t1 = t := by
  cases cs with
  | nil =>
      simp only [WatchTask.run, Option.some.injEq] at hrun
      exact ⟨rfl, hrun.symm⟩
  | cons c cs =>
      simp [WatchTask.run, WatchTask.step_of_returned impl t c h] at hrun

/-- The return statement runs the deferred `Unsubscribe` once and touches neither the
sink nor the log channel. -/
theorem WatchTask.ret_facts {k : EventKind} (impl : SubscriptionImpl) (t : WatchTask k)
    (err : Option GoError) :
    (WatchTask.ret impl t err).pc = .returned err ∧
      (WatchTask.ret impl t err).sub.unsubscribed = t.sub.unsubscribed + 1 ∧
      (WatchTask.ret impl t err).sink = t.sink ∧ (WatchTask.ret impl t err).logs = t.logs ∧
      (WatchTask.ret impl t err).contract = t.contract ∧
      (WatchTask.ret impl t err).name = t.name :=
  ⟨rfl, rfl, rfl, rfl, rfl, rfl⟩

/-- Every select of the task either returns, with exactly one more `Unsubscribe` issued,
or goes on to the next select with none issued. -/
theorem WatchTask.step_unsubscribed {k : EventKind} (impl : SubscriptionImpl)
    (t t1 : WatchTask k) (c : WatchCase) (h : t.step impl c = some t1) :
    (t1.pc.isReturned = true ∧ t1.sub.unsubscribed = t.sub.unsubscribed + 1) ∨
      (t1.pc.isReturned = false ∧ t1.sub.unsubscribed = t.sub.unsubscribed) := by
  unfold WatchTask.step at h
  cases hp : t.pc with
  | returned e => rw [hp] at h; cases h
  | outer =>
      rw [hp] at h
      cases c with
      | sink => cases h
      | quit =>
          simp only [Option.some.injEq] at h
          subst h
          exact Or.inl ⟨rfl, rfl⟩
      | err =>
          simp only at h
          rcases hr : t.sub.errc.recv none with _ | ⟨err, rest⟩
          · rw [hr] at h; cases h
          · rw [hr] at h
            simp only [Option.some.injEq] at h
            subst h
            exact Or.inl ⟨rfl, rfl⟩
      | logs =>
          simp only at h
          rcases hr : t.logs.recv Log.zero with _ | ⟨log, rest⟩
          · rw [hr] at h; cases h
          · rw [hr] at h
            simp only at h
            rcases hu : t.contract.UnpackLog k (Record.new k) t.name log with ⟨out, _ | e⟩
            · rw [hu] at h
              simp only [Option.some.injEq] at h
              subst h
              exact Or.inr ⟨rfl, rfl⟩
            · rw [hu] at h
              simp only [Option.some.injEq] at h
              subst h
              exact Or.inl ⟨rfl, rfl⟩
  | inner ev =>
      rw [hp] at h
      cases c with
      | logs => cases h
      | quit =>
          simp only [Option.some.injEq] at h
          subst h
          exact Or.inl ⟨rfl, rfl⟩
      | err =>
          simp only at h
          rcases hr : t.sub.errc.recv none with _ | ⟨err, rest⟩
          · rw [hr] at h; cases h
          · rw [hr] at h
            simp only [Option.some.injEq] at h
            subst h
            exact Or.inl ⟨rfl, rfl⟩
      | sink =>
          simp only [Option.some.injEq] at h
          subst h
          exact Or.inr ⟨rfl, rfl⟩

/-- C16: for each `WatchX` task and every finite sequence of select outcomes that takes
the task from a select to its return, whichever way it ends, `Unsubscribe` has been
called on the upstream subscription exactly once when the task has returned, and not at
all at any earlier point of the run: the call is made by the returning step. -/
theorem Watch_unsubscribes_once_at_exit (k : EventKind) (impl : SubscriptionImpl)
    (cs : List WatchCase) :
    ∀ (t t1 : WatchTask k), t.pc.isReturned = false → t.run impl cs = some t1 →
      t1.pc.isReturned = true →
      t1.sub.unsubscribed = t.sub.unsubscribed + 1 ∧
        ∀ cs1 cs2, cs = cs1 ++ cs2 → cs2 ≠ [] →
          ∃ t2, t.run impl cs1 = some t2 ∧ t2.pc.isReturned = false ∧
            t2.sub.unsubscribed = t.sub.unsubscribed := by
  induction cs with
  | nil =>
      intro t t1 hstart hrun hend
      simp only [WatchTask.run, Option.some.injEq] at hrun
      subst hrun
      rw [hstart] at hend
      cases hend
  | cons c cs ih =>
      intro t t1 hstart hrun hend
      simp only [WatchTask.run] at hrun
      rcases hs : t.step impl c with _ | t3
      · rw [hs] at hrun; cases hrun
      · rw [hs] at hrun
        simp only at hrun
        rcases WatchTask.step_unsubscribed impl t t3 c hs with ⟨hret, hcnt⟩ | ⟨hgo, hcnt⟩
        · obtain ⟨hnil, h1⟩ := WatchTask.run_of_returned impl t3 t1 cs hret hrun
          subst hnil
          subst h1
          refine ⟨hcnt, ?_⟩
          intro cs1 cs2 hsplit hne
          cases cs1 with
          | nil => exact ⟨t, rfl, hstart, rfl⟩
          | cons d ds =>
              simp only [List.cons_append, List.cons.injEq] at hsplit
              have : ds ++ cs2 = [] := hsplit.2.symm
              simp only [List.append_eq_nil] at this
              exact absurd this.2 hne
        · obtain ⟨hfin, hpre⟩ := ih t3 t1 hgo hrun hend
          refine ⟨by rw [hfin, hcnt], ?_⟩
          intro cs1 cs2 hsplit hne
          cases cs1 with
          | nil => exact ⟨t, rfl, hstart, rfl⟩
          | cons d ds =>
              simp only [List.cons_append, List.cons.injEq] at hsplit
              obtain ⟨hd, htl⟩ := hsplit
              subst hd
              obtain ⟨t2, hr2, hp2, hc2⟩ := hpre ds cs2 htl hne
              refine ⟨t2, ?_, hp2, by rw [hc2, hcnt]⟩
              simp only [WatchTask.run, hs]
              exact hr2

/-! ## The watch task: decode failures (C17) -/

/-- C17: for each `WatchX` task, when the log received at the outer select fails to decode
with error `e`, the task returns exactly `e`, the sink is as it was (nothing made from
that log is sent), and the task takes no further select: no later log is received and
nothing more is sent, whatever outcomes are offered. -/
theorem Watch_decode_failure_ends_task (k : EventKind) (impl : SubscriptionImpl)
    (t : WatchTask k) (l : Log) (rest : Chan Log) (out : Record k) (e : GoError)
    (hpc : t.pc = .outer) (hl : t.logs.recv Log.zero = some (l, rest))
    (hdec : t.contract.UnpackLog k (Record.new k) t.name l = (out, some e)) :
    ∃ t1, t.step impl WatchCase.logs = some t1 ∧ t1.pc = .returned (some e) ∧
      t1.sink = t.sink ∧ t1.logs = rest ∧
      (∀ c, t1.step impl c = none) ∧
      ∀ cs t2, t1.run impl cs = some t2 → cs = [] ∧ t2 = t1 := by
  refine ⟨WatchTask.ret impl { t with logs := rest } (some e), ?_, rfl, rfl, rfl, ?_, ?_⟩
  · unfold WatchTask.step
    rw [hpc]
    simp only [hl, hdec]
  · intro c
    exact WatchTask.step_of_returned impl _ c rfl
  · intro cs t2 hrun
    exact WatchTask.run_of_returned impl _ t2 cs rfl hrun

/-! ## The watch task: delivery in order (C18) -/

/-- Facts about the list behind a channel whose next value is `l`. -/
theorem List.drop_cons_facts {α : Type} (ls : List α) :
    ∀ (n : Nat) (l : α) (r : List α), ls.drop n = l :: r →
      ls.drop (n + 1) = r ∧ ls.take (n + 1) = ls.take n ++ [l] ∧ n + 1 ≤ ls.length := by
  induction ls with
  | nil => intro n l r h; simp at h
  | cons a as ih =>
      intro n l r h
      cases n with
      | zero =>
          simp only [List.drop_zero, List.cons.injEq] at h
          obtain ⟨h1, h2⟩ := h
          subst h1; subst h2
          simp
      | succ m =>
          simp only [List.drop_succ_cons] at h
          obtain ⟨h1, h2, h3⟩ := ih m l r h
          refine ⟨by simpa using h1, ?_, by simpa using h3⟩
          simp only [List.take_succ_cons, h2, List.cons_append]

/-- Receiving from an open channel takes the head of its buffer. -/
theorem Chan.recv_open {α : Type} (zero : α) (buf : List α) (x : α) (rest : Chan α)
    (h : Chan.recv zero ⟨buf, false⟩ = some (x, rest)) :
    ∃ r, buf = x :: r ∧ rest = ⟨r, false⟩ := by
  cases buf with
  | nil => simp [Chan.recv] at h
  | cons y ys =>
      simp only [Chan.recv, Option.some.injEq, Prod.mk.injEq] at h
      exact ⟨ys, by rw [h.1], h.2.symm⟩

/-- Every select of the task keeps the invariant, with the same or one more log
received. -/
theorem WatchTask.step_Inv {k : EventKind} (impl : SubscriptionImpl) (t0 : WatchTask k)
    (ls : List Log) (n : Nat) (t t1 : WatchTask k) (c : WatchCase)
    (hinv : WatchTask.Inv t0 ls n t) (hs : t.step impl c = some t1) :
    ∃ m, WatchTask.Inv t0 ls m t1 := by
  obtain ⟨hn, hlogs, hct, hnm, hpcinv⟩ := hinv
  unfold WatchTask.step at hs
  cases hp : t.pc with
  | returned e => rw [hp] at hs; cases hs
  | outer =>
      rw [hp] at hs hpcinv
      simp only at hpcinv
      cases c with
      | sink => cases hs
      | quit =>
          simp only [Option.some.injEq] at hs
          subst hs
          exact ⟨n, hn, hlogs, hct, hnm, Or.inl hpcinv⟩
      | err =>
          simp only at hs
          rcases hr : t.sub.errc.recv none with _ | ⟨err, rest⟩
          · rw [hr] at hs; cases hs
          · rw [hr] at hs
            simp only [Option.some.injEq] at hs
            subst hs
            exact ⟨n, hn, hlogs, hct, hnm, Or.inl hpcinv⟩
      | logs =>
          simp only at hs
          rcases hr : t.logs.recv Log.zero with _ | ⟨log, rest⟩
          · rw [hr] at hs; cases hs
          · rw [hr] at hs
            simp only at hs
            rw [hlogs] at hr
            obtain ⟨r, hdrop, hrest⟩ := Chan.recv_open Log.zero _ log rest hr
            obtain ⟨hd1, htake, hlen⟩ := List.drop_cons_facts ls n log r hdrop
            have hrest1 : rest = ⟨ls.drop (n + 1), false⟩ := by rw [hrest, hd1]
            rcases hu : t.contract.UnpackLog k (Record.new k) t.name log with ⟨out, _ | e⟩
            · rw [hu] at hs
              simp only [Option.some.injEq] at hs
              subst hs
              refine ⟨n + 1, hlen, hrest1, hct, hnm, ?_⟩
              refine ⟨log, by simpa using htake, ?_, by simpa using hpcinv⟩
              simp only [WatchTask.decoded, ← hct, ← hnm, hu]
            · rw [hu] at hs
              simp only [Option.some.injEq] at hs
              subst hs
              exact ⟨n + 1, hlen, hrest1, hct, hnm,
                Or.inr ⟨Nat.succ_pos n, by simpa using hpcinv⟩⟩
  | inner ev =>
      rw [hp] at hs hpcinv
      simp only at hpcinv
      obtain ⟨l, htake, hev, hsink⟩ := hpcinv
      have hpos : 0 < n := by
        rcases Nat.eq_zero_or_pos n with h0 | h0
        · subst h0; simp at htake
        · exact h0
      cases c with
      | logs => cases hs
      | quit =>
          simp only [Option.some.injEq] at hs
          subst hs
          exact ⟨n, hn, hlogs, hct, hnm, Or.inr ⟨hpos, hsink⟩⟩
      | err =>
          simp only at hs
          rcases hr : t.sub.errc.recv none with _ | ⟨err, rest⟩
          · rw [hr] at hs; cases hs
          · rw [hr] at hs
            simp only [Option.some.injEq] at hs
            subst hs
            exact ⟨n, hn, hlogs, hct, hnm, Or.inr ⟨hpos, hsink⟩⟩
      | sink =>
          simp only [Option.some.injEq] at hs
          subst hs
          refine ⟨n, hn, hlogs, hct, hnm, ?_⟩
          show t.sink ++ [ev] = (ls.take n).map t0.decoded
          rw [hsink, hev, htake, List.map_append]
          rfl

/-- Every run of the task keeps the invariant. -/
theorem WatchTask.run_Inv {k : EventKind} (impl : SubscriptionImpl) (t0 : WatchTask k)
    (ls : List Log) (cs : List WatchCase) :
    ∀ (n : Nat) (t t1 : WatchTask k), WatchTask.Inv t0 ls n t → t.run impl cs = some t1 →
      ∃ m, WatchTask.Inv t0 ls m t1 := by
  induction cs with
  | nil =>
      intro n t t1 hinv hrun
      simp only [WatchTask.run, Option.some.injEq] at hrun
      subst hrun
      exact ⟨n, hinv⟩
  | cons c cs ih =>
      intro n t t1 hinv hrun
      simp only [WatchTask.run] at hrun
      rcases hs : t.step impl c with _ | t3
      · rw [hs] at hrun; cases hrun
      · rw [hs] at hrun
        obtain ⟨m, hm⟩ := WatchTask.step_Inv impl t0 ls n t t3 c hinv hs
        exact ih m t3 t1 hm hrun

/-- The records made of a list of logs carry these logs as `Raw`, in order. -/
theorem WatchTask.decoded_getRaw {k : EventKind} (t0 : WatchTask k) (xs : List Log) :
    (xs.map t0.decoded).map Record.getRaw = xs := by
  induction xs with
  | nil => rfl
  | cons x xs ih =>
      simp only [List.map_cons, ih, WatchTask.decoded, Record.getRaw_setRaw]

/-- C18: for each `WatchX` task started on the incoming log sequence `ls` and every run
of it: the task has received a prefix of `ls`, and the records sent to the sink are the
decoding, in the same order, of that prefix or of that prefix without its last log; so
each log is handed off at most once, each record sent has `Raw` equal to its source log,
and once the task has returned (after a decode or upstream failure, or a cancellation)
nothing more is sent. -/
theorem Watch_delivers_prefix_in_order (k : EventKind) (impl : SubscriptionImpl)
    (ls : List Log) (cs : List WatchCase) (t t1 : WatchTask k)
    (hpc : t.pc = .outer) (hsink : t.sink = []) (hlogs : t.logs = ⟨ls, false⟩)
    (hrun : t.run impl cs = some t1) :
    ∃ n, n ≤ ls.length ∧ t1.logs = ⟨ls.drop n, false⟩ ∧
      (t1.sink = (ls.take n).map (fun l =>
          Record.setRaw (t.contract.UnpackLog k (Record.new k) t.name l).1 l) ∨
        (0 < n ∧ t1.sink = (ls.take (n - 1)).map (fun l =>
          Record.setRaw (t.contract.UnpackLog k (Record.new k) t.name l).1 l))) ∧
      t1.sink.map Record.getRaw = ls.take t1.sink.length ∧
      (t1.pc.isReturned = true →
        ∀ cs2 t2, t1.run impl cs2 = some t2 → t2.sink = t1.sink) := by
  have h0 : WatchTask.Inv t ls 0 t := by
    refine ⟨Nat.zero_le _, by simpa using hlogs, rfl, rfl, ?_⟩
    rw [hpc]
    simpa using hsink
  obtain ⟨n, hn, hl1, _, _, hpcinv⟩ := WatchTask.run_Inv impl t ls cs 0 t t1 h0 hrun
  have hsinks : t1.sink = (ls.take n).map t.decoded ∨
      (0 < n ∧ t1.sink = (ls.take (n - 1)).map t.decoded) := by
    cases hp : t1.pc with
    | outer =>
        rw [hp] at hpcinv
        exact Or.inl hpcinv
    | inner ev =>
        rw [hp] at hpcinv
        obtain ⟨l, htake, _, hs⟩ := hpcinv
        refine Or.inr ⟨?_, hs⟩
        rcases Nat.eq_zero_or_pos n with hz | hz
        · subst hz; simp at htake
        · exact hz
    | returned e =>
        rw [hp] at hpcinv
        exact hpcinv
  have hraw : t1.sink.map Record.getRaw = ls.take t1.sink.length := by
    rcases hsinks with h | ⟨_, h⟩
    · rw [h, WatchTask.decoded_getRaw, List.length_map, List.length_take,
        Nat.min_eq_left hn]
    · rw [h, WatchTask.decoded_getRaw, List.length_map, List.length_take,
        Nat.min_eq_left (by omega)]
  refine ⟨n, hn, hl1, hsinks, hraw, ?_⟩
  intro hret cs2 t2 hrun2
  rw [(WatchTask.run_of_returned impl t1 t2 cs2 hret hrun2).2]

/-! ## The later theorems at the sample backend -/

/-- C14 with a library whose ABI parse succeeds: the three facets of the full instance
hold the same bound contract. -/
theorem Constructors_fail_iff_abi_fails_witness :
    ∃ inst, NewIfastsettlementv3 sampleLibrary 5 (some ⟨1⟩) = (some inst, none) ∧
      inst.Ifastsettlementv3Caller.contract = inst.Ifastsettlementv3Transactor.contract ∧
      inst.Ifastsettlementv3Transactor.contract = inst.Ifastsettlementv3Filterer.contract :=
  ⟨_, ((Constructors_fail_iff_abi_fails sampleLibrary 5 (some ⟨1⟩)).2 _ rfl).1, rfl, rfl⟩

/-- C16 at the sample task: one log delivered, then the upstream error arrives while the
task waits for the next log. -/
theorem Watch_unsubscribes_once_at_exit_witness :
    (WatchTask.ret sampleImpl
        { sampleTask with logs := ⟨[shortLog, sampleLog2], false⟩,
                          sink := [Record.setRaw (k := .ExecutorUpdated)
                            { OldExecutor := 1, NewExecutor := 2, Raw := Log.zero }
                            sampleLog1],
                          sub := ⟨⟨[], false⟩, 0⟩ }
        (some ⟨"connection lost"⟩)).sub.unsubscribed = sampleTask.sub.unsubscribed + 1 ∧
      ∀ cs1 cs2, [WatchCase.logs, WatchCase.sink, WatchCase.err] = cs1 ++ cs2 → cs2 ≠ [] →
        ∃ t2, sampleTask.run sampleImpl cs1 = some t2 ∧ t2.pc.isReturned = false ∧
          t2.sub.unsubscribed = sampleTask.sub.unsubscribed :=
  Watch_unsubscribes_once_at_exit .ExecutorUpdated sampleImpl
    [WatchCase.logs, WatchCase.sink, WatchCase.err] sampleTask _ rfl rfl rfl

/-- C17 at the sample task once its first log is delivered: the second log has no indexed
topics, and the task returns the decode error with the sink unchanged. -/
theorem Watch_decode_failure_ends_task_witness :
    ∃ t1,
      WatchTask.step sampleImpl
          { sampleTask with logs := ⟨[shortLog, sampleLog2], false⟩ } WatchCase.logs =
        some t1 ∧
      t1.pc = .returned (some ⟨"topic count mismatch"⟩) ∧ t1.sink = [] ∧
      t1.logs = ⟨[sampleLog2], false⟩ ∧
      (∀ c, t1.step sampleImpl c = none) ∧
      ∀ cs t2, t1.run sampleImpl cs = some t2 → cs = [] ∧ t2 = t1 :=
  Watch_decode_failure_ends_task .ExecutorUpdated sampleImpl
    { sampleTask with logs := ⟨[shortLog, sampleLog2], false⟩ } shortLog
    ⟨[sampleLog2], false⟩ (Record.new .ExecutorUpdated) ⟨"topic count mismatch"⟩ rfl rfl rfl

/-- C18 at the sample task: the first log is delivered, the second fails to decode. -/
theorem Watch_delivers_prefix_in_order_witness :
    ∃ t1, sampleTask.run sampleImpl [WatchCase.logs, WatchCase.sink, WatchCase.logs] =
        some t1 ∧
      ∃ n, n ≤ [sampleLog1, shortLog, sampleLog2].length ∧
        t1.logs = ⟨[sampleLog1, shortLog, sampleLog2].drop n, false⟩ ∧
        (t1.sink = ([sampleLog1, shortLog, sampleLog2].take n).map (fun l =>
            Record.setRaw (sampleTask.contract.UnpackLog .ExecutorUpdated
              (Record.new .ExecutorUpdated) sampleTask.name l).1 l) ∨
          (0 < n ∧ t1.sink = ([sampleLog1, shortLog, sampleLog2].take (n - 1)).map (fun l =>
            Record.setRaw (sampleTask.contract.UnpackLog .ExecutorUpdated
              (Record.new .ExecutorUpdated) sampleTask.name l).1 l))) ∧
        t1.sink.map Record.getRaw = [sampleLog1, shortLog, sampleLog2].take t1.sink.length ∧
        (t1.pc.isReturned = true →
          ∀ cs2 t2, t1.run sampleImpl cs2 = some t2 → t2.sink = t1.sink) :=
  ⟨_, rfl,
    Watch_delivers_prefix_in_order .ExecutorUpdated sampleImpl
      [sampleLog1, shortLog, sampleLog2] [WatchCase.logs, WatchCase.sink, WatchCase.logs]
      sampleTask _ rfl rfl rfl rfl⟩

/-! ## Depth of the self-call of `Next` (C22) -/

theorem Iterator.NextTraced_of_fail {k : EventKind} (pick : SelectCase) (it : Iterator k)
    (hf : it.fail ≠ none) : it.NextTraced pick = (0, some (false, it)) := by
  rw [Iterator.NextTraced]; simp [hf]

theorem Iterator.NextTraced_of_done {k : EventKind} (pick : SelectCase) (it : Iterator k)
    (hf : it.fail = none) (hd : it.done = true) :
    it.NextTraced pick =
      match it.logs.recv Log.zero with
      | some (log, rest) => (0, some (Iterator.onLog { it with logs := rest } log))
      | none => (0, some (false, it)) := by
  rw [Iterator.NextTraced]; simp [hf, hd]

theorem Iterator.NextTraced_of_active {k : EventKind} (pick : SelectCase) (it : Iterator k)
    (hf : it.fail = none) (hd : it.done = false) :
    it.NextTraced pick =
      match select2 pick (it.logs.recv Log.zero) (it.sub.errc.recv none) with
      | some (.inl (log, rest)) => (0, some (Iterator.onLog { it with logs := rest } log))
      | some (.inr (err, rest)) =>
          ((Iterator.NextTraced pick
              { it with sub := { it.sub with errc := rest }, done := true,
                        fail := err }).1 + 1,
            (Iterator.NextTraced pick
              { it with sub := { it.sub with errc := rest }, done := true, fail := err }).2)
      | none => (0, none) := by
  rw [Iterator.NextTraced]; simp [hf, hd]

/-- From a failed or done iterator `Next` makes no self-call, and it returns. -/
theorem Iterator.NextTraced_no_call {k : EventKind} (pick : SelectCase) (it : Iterator k)
    (h : it.fail ≠ none ∨ it.done = true) :
    (it.NextTraced pick).1 = 0 ∧ (it.NextTraced pick).2 = it.Next pick ∧
      ∃ r, it.Next pick = some r := by
  by_cases hf : it.fail = none
  · have hd : it.done = true := by
      rcases h with h | h
      · exact absurd hf h
      · exact h
    rw [Iterator.NextTraced_of_done pick it hf hd, Iterator.Next_of_done pick it hf hd]
    rcases it.logs.recv Log.zero with _ | ⟨log, rest⟩
    · exact ⟨rfl, rfl, _, rfl⟩
    · exact ⟨rfl, rfl, _, rfl⟩
  · rw [Iterator.NextTraced_of_fail pick it hf, Iterator.Next_of_fail pick it hf]
    exact ⟨rfl, rfl, _, rfl⟩

/-- C22: `Next` is total and calls itself at most once. The traced run returns the result
of `Next` and counts at most one self-call; a self-call is made only from the Active
select (fail nil, done false), on an iterator whose `done` has been set, and the fail
branch and the done branch return without one. Whenever the log channel or the upstream
error channel is ready, `Next` returns; it waits only when the iterator is Active and
neither channel is ready. -/
theorem Next_calls_itself_at_most_once (k : EventKind) (pick : SelectCase)
    (it : Iterator k) :
    (it.NextTraced pick).2 = it.Next pick ∧
    (it.NextTraced pick).1 ≤ 1 ∧
    ((it.NextTraced pick).1 = 1 → it.fail = none ∧ it.done = false ∧
      ∃ err rest, select2 pick (it.logs.recv Log.zero) (it.sub.errc.recv none) =
          some (.inr (err, rest)) ∧
        it.Next pick =
          Iterator.Next pick
            { it with sub := { it.sub with errc := rest }, done := true, fail := err } ∧
        (Iterator.NextTraced pick
          { it with sub := { it.sub with errc := rest }, done := true,
                    fail := err }).1 = 0) ∧
    ((it.fail ≠ none ∨ it.done = true) → (it.NextTraced pick).1 = 0) ∧
    ((it.logs.recv Log.zero ≠ none ∨ it.sub.errc.recv none ≠ none) →
      ∃ r, it.Next pick = some r) ∧
    (it.Next pick = none ↔
      it.fail = none ∧ it.done = false ∧ it.logs.recv Log.zero = none ∧
        it.sub.errc.recv none = none) := by
  by_cases hfd : it.fail ≠ none ∨ it.done = true
  · obtain ⟨h0, heq, r, hr⟩ := Iterator.NextTraced_no_call pick it hfd
    refine ⟨heq, by omega, ?_, fun _ => h0, fun _ => ⟨r, hr⟩, ?_⟩
    · intro h1; omega
    · constructor
      · intro hn; rw [hr] at hn; cases hn
      · rintro ⟨hf, hd, _, _⟩
        rcases hfd with h | h
        · exact absurd hf h
        · rw [hd] at h; cases h
  · have hf : it.fail = none := by
      by_contra h; exact hfd (Or.inl h)
    have hd : it.done = false := by
      cases hdd : it.done with
      | false => rfl
      | true => exact absurd (Or.inr hdd) hfd
    rw [Iterator.NextTraced_of_active pick it hf hd, Iterator.Next_of_active pick it hf hd]
    rcases hsel : select2 pick (it.logs.recv Log.zero) (it.sub.errc.recv none) with
      _ | (⟨log, rest⟩ | ⟨err, rest⟩)
    · have hnone : it.logs.recv Log.zero = none ∧ it.sub.errc.recv none = none := by
        rcases hl : it.logs.recv Log.zero with _ | a <;>
          rcases he : it.sub.errc.recv none with _ | b <;>
          rw [hl, he] at hsel <;> first | exact ⟨rfl, rfl⟩ | (cases pick <;> cases hsel)
      refine ⟨rfl, by simp, ?_, fun h => absurd h hfd, ?_, ?_⟩
      · intro h1; simp at h1
      · rintro (h | h)
        · exact absurd hnone.1 h
        · exact absurd hnone.2 h
      · exact ⟨fun _ => ⟨hf, hd, hnone.1, hnone.2⟩, fun _ => rfl⟩
    · refine ⟨rfl, by simp, ?_, fun h => absurd h hfd, fun _ => ⟨_, rfl⟩, ?_⟩
      · intro h1; simp at h1
      · constructor
        · intro hn; cases hn
        · rintro ⟨_, _, hl, he⟩
          rw [hl, he] at hsel
          cases hsel
    · obtain ⟨h0, heq, r, hr⟩ := Iterator.NextTraced_no_call pick
        { it with sub := { it.sub with errc := rest }, done := true, fail := err }
        (Or.inr rfl)
      refine ⟨heq, by simp only [h0]; omega, ?_, fun h => absurd h hfd,
        fun _ => ⟨r, hr⟩, ?_⟩
      · intro _
        exact ⟨hf, hd, err, rest, rfl, rfl, h0⟩
      · constructor
        · intro hn
          have hn2 : some r = none := hr.symm.trans hn
          cases hn2
        · rintro ⟨_, _, hl, he⟩
          rw [hl, he] at hsel
          cases hsel

/-! ## Cancellation of the watch task (C21) -/

/-- C21: for each `WatchX` task that has not returned, at the outer select (waiting for a
log) as well as at the inner select (holding a decoded record): the cancellation case can
be taken, and the task then returns a nil error with the sink as it was, so a record held
at the inner select is dropped, and nothing is sent afterwards. Likewise, when the
upstream error channel has a value, the error case can be taken and the task returns that
value with the sink as it was. Neither case needs the consumer to receive. -/
theorem Watch_quit_returns_nil (k : EventKind) (impl : SubscriptionImpl) (t : WatchTask k)
    (h : t.pc.isReturned = false) :
    t.step impl WatchCase.quit = some (WatchTask.ret impl t none) ∧
    (WatchTask.ret impl t none).pc = .returned none ∧
    (WatchTask.ret impl t none).sink = t.sink ∧
    (∀ cs t2, (WatchTask.ret impl t none).run impl cs = some t2 → t2.sink = t.sink) ∧
    (∀ ev, t.pc = .inner ev →
      t.step impl WatchCase.sink = some { t with sink := t.sink ++ [ev], pc := .outer } ∧
      (WatchTask.ret impl t none).sink ≠ t.sink ++ [ev]) ∧
    (∀ err rest, t.sub.errc.recv none = some (err, rest) →
      ∃ t3, t.step impl WatchCase.err = some t3 ∧ t3.pc = .returned err ∧
        t3.sink = t.sink ∧ ∀ cs t4, t3.run impl cs = some t4 → t4.sink = t.sink) := by
  have hafter : ∀ (t1 : WatchTask k), t1.pc.isReturned = true → t1.sink = t.sink →
      ∀ cs t2, t1.run impl cs = some t2 → t2.sink = t.sink := by
    intro t1 hret hs cs t2 hrun
    rw [(WatchTask.run_of_returned impl t1 t2 cs hret hrun).2, hs]
  refine ⟨?_, rfl, rfl, hafter _ rfl rfl, ?_, ?_⟩
  · unfold WatchTask.step
    cases hp : t.pc with
    | returned e => rw [hp] at h; cases h
    | outer => rfl
    | inner ev => rfl
  · intro ev hp
    refine ⟨?_, ?_⟩
    · unfold WatchTask.step
      rw [hp]
    · show t.sink ≠ t.sink ++ [ev]
      intro hc
      have := congrArg List.length hc
      simp at this
  · intro err rest hr
    refine ⟨WatchTask.ret impl { t with sub := { t.sub with errc := rest } } err, ?_, rfl,
      rfl, hafter _ rfl rfl⟩
    unfold WatchTask.step
    cases hp : t.pc with
    | returned e => rw [hp] at h; cases h
    | outer => simp only [hr]
    | inner ev => simp only [hr]

/-! ## Logs consumed by one `Next` (C23) -/

/-- What a receive does to a channel: it takes the head of the buffer, or, on a closed
drained channel, yields the zero value and leaves the channel as it is. -/
theorem Chan.recv_some {α : Type} (zero x : α) (c rest : Chan α)
    (h : c.recv zero = some (x, rest)) :
    rest.closed = c.closed ∧
      (c.buf = x :: rest.buf ∨ (c.buf = [] ∧ c.closed = true ∧ rest = c ∧ x = zero)) := by
  obtain ⟨buf, closed⟩ := c
  cases buf with
  | nil =>
      cases closed with
      | false => simp [Chan.recv] at h
      | true =>
          simp only [Chan.recv, if_true, Option.some.injEq, Prod.mk.injEq] at h
          obtain ⟨h1, h2⟩ := h
          subst h1; subst h2
          exact ⟨rfl, Or.inr ⟨rfl, rfl, rfl, rfl⟩⟩
  | cons y ys =>
      simp only [Chan.recv, Option.some.injEq, Prod.mk.injEq] at h
      obtain ⟨h1, h2⟩ := h
      subst h1; subst h2
      exact ⟨rfl, Or.inl rfl⟩

/-- A log arm that returns true leaves `Event` holding a record whose `Raw` is the log. -/
theorem Iterator.onLog_true {k : EventKind} (it : Iterator k) (log : Log)
    (h : (it.onLog log).1 = true) :
    (it.onLog log).2.Event.map Record.getRaw = some log := by
  rcases hu : it.contract.UnpackLog k (Record.new k) it.event log with ⟨out, _ | e⟩
  · rw [Iterator.onLog_ok it log out hu]
    simp [Record.getRaw_setRaw]
  · rw [Iterator.onLog_err it log out e hu] at h
    cases h

/-- Every return of `Next` either is false with the log channel untouched, or is the log
arm run on a log just received, with the channel as the receive left it. -/
theorem Iterator.Next_cases {k : EventKind} (pick : SelectCase) (it : Iterator k)
    (r : Bool × Iterator k) (h : it.Next pick = some r) :
    (r.1 = false ∧ r.2.logs = it.logs) ∨
      ∃ l rest, ∃ it0 : Iterator k, it.logs.recv Log.zero = some (l, rest) ∧
        r = it0.onLog l ∧ it0.logs = rest := by
  have hdone : ∀ it1 : Iterator k, it1.done = true → it1.logs = it.logs →
      ∀ r1, it1.Next pick = some r1 →
      (r1.1 = false ∧ r1.2.logs = it.logs) ∨
        ∃ l rest, ∃ it0 : Iterator k, it.logs.recv Log.zero = some (l, rest) ∧
          r1 = it0.onLog l ∧ it0.logs = rest := by
    intro it1 hd1 hlg r1 h1
    by_cases hf1 : it1.fail = none
    · rw [Iterator.Next_of_done pick it1 hf1 hd1] at h1
      rcases hl : it1.logs.recv Log.zero with _ | ⟨l, rest⟩
      · rw [hl] at h1
        cases h1
        exact Or.inl ⟨rfl, hlg⟩
      · rw [hl] at h1
        cases h1
        rw [hlg] at hl
        exact Or.inr ⟨l, rest, _, hl, rfl, rfl⟩
    · rw [Iterator.Next_of_fail pick it1 hf1] at h1
      cases h1
      exact Or.inl ⟨rfl, hlg⟩
  by_cases hfd : it.fail ≠ none ∨ it.done = true
  · rcases hfd with hf | hd
    · rw [Iterator.Next_of_fail pick it hf] at h
      cases h
      exact Or.inl ⟨rfl, rfl⟩
    · exact hdone it hd rfl r h
  · have hf : it.fail = none := by
      by_contra hc; exact hfd (Or.inl hc)
    have hd : it.done = false := by
      cases hdd : it.done with
      | false => rfl
      | true => exact absurd (Or.inr hdd) hfd
    rw [Iterator.Next_of_active pick it hf hd] at h
    rcases hsel : select2 pick (it.logs.recv Log.zero) (it.sub.errc.recv none) with
      _ | (⟨log, rest⟩ | ⟨err, rest⟩)
    · rw [hsel] at h; cases h
    · rw [hsel] at h
      cases h
      have hl : it.logs.recv Log.zero = some (log, rest) := by
        rcases hl : it.logs.recv Log.zero with _ | a <;>
          rcases he : it.sub.errc.recv none with _ | b <;>
          rw [hl, he] at hsel
        · cases hsel
        · cases hsel
        · cases hsel; rfl
        · cases pick
          · cases hsel; rfl
          · cases hsel
      exact Or.inr ⟨log, rest, _, hl, rfl, rfl⟩
    · rw [hsel] at h
      exact hdone
        { it with sub := { it.sub with errc := rest }, done := true, fail := err }
        rfl rfl r h

/-- A failed iterator answers every sequence of calls with false and stays as it is. -/
theorem Iterator.NextSeq_of_fail {k : EventKind} (it : Iterator k) (hf : it.fail ≠ none)
    (picks : List SelectCase) :
    it.NextSeq picks = some (picks.map (fun _ => (false, it))) := by
  induction picks with
  | nil => rfl
  | cons pick picks ih => simp [Iterator.NextSeq, Iterator.Next_of_fail pick it hf, ih]

/-- C23: for every iterator state, one call to `Next` removes at most one log from the
buffer of the log channel, and what remains is the buffer as it was or its tail, so the
remaining logs keep their order. A call that returns true has received a log and left it
in `Event.Raw`; with the log channel open, as the backend hands it over, that log is the
head of the buffer and exactly it has been removed (on a closed, drained channel the
receive yields the zero log and there is nothing to remove). A buffered log whose decoding
fails is removed as well, and since the iterator has then failed, every later `Next`
returns false and leaves the iterator as it is: that log is never delivered or retried. -/
theorem Next_removes_at_most_one_log (k : EventKind) (pick : SelectCase) (it : Iterator k) :
    (∀ r ∈ it.Next pick, r.2.logs.closed = it.logs.closed ∧
      (r.2.logs.buf = it.logs.buf ∨ ∃ l, it.logs.buf = l :: r.2.logs.buf)) ∧
    (∀ r ∈ it.Next pick, r.1 = true →
      ∃ l, r.2.Event.map Record.getRaw = some l ∧
        (it.logs.buf = l :: r.2.logs.buf ∨
          (it.logs.buf = [] ∧ it.logs.closed = true ∧ r.2.logs = it.logs ∧ l = Log.zero))) ∧
    (it.logs.closed = false → ∀ r ∈ it.Next pick, r.1 = true →
      ∃ l, it.logs.buf = l :: r.2.logs.buf ∧ r.2.Event.map Record.getRaw = some l) ∧
    (∀ l rest out e, it.logs.buf = l :: rest → it.fail = none →
      (it.done = true ∨ pick = SelectCase.logs ∨ it.sub.errc.recv none = none ∨
        ∃ c1, it.sub.errc.recv none = some (none, c1)) →
      it.contract.UnpackLog k (Record.new k) it.event l = (out, some e) →
      ∃ it1, it.Next pick = some (false, it1) ∧ it1.logs.buf = rest ∧
        it1.fail = some e ∧
        ∀ picks : List SelectCase,
          it1.NextSeq picks = some (picks.map (fun _ => (false, it1)))) := by
  have hB : ∀ r ∈ it.Next pick, r.1 = true →
      ∃ l, r.2.Event.map Record.getRaw = some l ∧
        (it.logs.buf = l :: r.2.logs.buf ∨
          (it.logs.buf = [] ∧ it.logs.closed = true ∧ r.2.logs = it.logs ∧
            l = Log.zero)) := by
    intro r hr htrue
    rcases Iterator.Next_cases pick it r hr with ⟨hfalse, _⟩ | ⟨l, rest, it0, hl, hr0, hlg⟩
    · rw [hfalse] at htrue; cases htrue
    · obtain ⟨_, hbuf⟩ := Chan.recv_some Log.zero l it.logs rest hl
      have hfr := Iterator.onLog_frame it0 l
      subst hr0
      refine ⟨l, Iterator.onLog_true it0 l htrue, ?_⟩
      rw [hfr.2.2, hlg]
      rcases hbuf with h1 | ⟨h1, h2, h3, h4⟩
      · exact Or.inl h1
      · exact Or.inr ⟨h1, h2, h3, h4⟩
  refine ⟨?_, hB, ?_, ?_⟩
  · intro r hr
    rcases Iterator.Next_cases pick it r hr with ⟨_, hsame⟩ | ⟨l, rest, it0, hl, hr0, hlg⟩
    · rw [hsame]
      exact ⟨rfl, Or.inl rfl⟩
    · obtain ⟨hcl, hbuf⟩ := Chan.recv_some Log.zero l it.logs rest hl
      have hfr := Iterator.onLog_frame it0 l
      subst hr0
      rw [hfr.2.2, hlg]
      refine ⟨hcl, ?_⟩
      rcases hbuf with h1 | ⟨_, _, h3, _⟩
      · exact Or.inr ⟨l, h1⟩
      · rw [h3]; exact Or.inl rfl
  · intro hopen r hr htrue
    obtain ⟨l, hraw, hbuf⟩ := hB r hr htrue
    rcases hbuf with h1 | ⟨_, h2, _, _⟩
    · exact ⟨l, h1, hraw⟩
    · rw [hopen] at h2; cases h2
  · intro l rest out e hbuf hf htake hdec
    have hl : it.logs.recv Log.zero = some (l, ⟨rest, it.logs.closed⟩) := by
      simp [Chan.recv, hbuf]
    obtain ⟨it0, hnext, hct, hev, _, hlogs, _⟩ :=
      Iterator.Next_takes_log pick it l ⟨rest, it.logs.closed⟩ hf hl htake
    rw [← hct, ← hev] at hdec
    rw [hnext, Iterator.onLog_err it0 l out e hdec]
    refine ⟨_, rfl, ?_, rfl, ?_⟩
    · show it0.logs.buf = rest
      rw [hlogs]
    · intro picks
      exact Iterator.NextSeq_of_fail _ (by simp) picks

/-! ## One event name and one rule set per event (C24) -/

/-- C24: for each of the four events and every filter criteria, `FilterX` and `WatchX`
hand the backend the same event name and the same rule lists (as many, in the same order,
with the same elements), and this name is the one later used to decode: the name stored
in the iterator `FilterX` returns, which the log arm of `Next` passes to `UnpackLog`; the
name held by the task `WatchX` returns, which the watch loop passes to `UnpackLog`; and
the name `ParseX` passes to `UnpackLog`. -/
theorem Filter_Watch_Parse_same_event (contract : BoundContract) (impl : SubscriptionImpl)
    (fopts : Option FilterOpts) (wopts : Option WatchOpts) (a b c : List Address) :
    (((FilterExecutorUpdated contract fopts a b).calls.map (fun x => (x.name, x.query)) =
          [("ExecutorUpdated", [a.map Any.address, b.map Any.address])] ∧
        (WatchExecutorUpdated contract wopts a b).calls.map (fun x => (x.name, x.query)) =
          [("ExecutorUpdated", [a.map Any.address, b.map Any.address])]) ∧
      (∀ it ∈ (FilterExecutorUpdated contract fopts a b).it, it.event = "ExecutorUpdated") ∧
      (∀ w ∈ (WatchExecutorUpdated contract wopts a b).task, w.name = "ExecutorUpdated") ∧
      EventKind.ExecutorUpdated.name = "ExecutorUpdated") ∧
    (((FilterIntentExecuted contract fopts a b c).calls.map (fun x => (x.name, x.query)) =
          [("IntentExecuted",
            [a.map Any.address, b.map Any.address, c.map Any.address])] ∧
        (WatchIntentExecuted contract wopts a b c).calls.map (fun x => (x.name, x.query)) =
          [("IntentExecuted",
            [a.map Any.address, b.map Any.address, c.map Any.address])]) ∧
      (∀ it ∈ (FilterIntentExecuted contract fopts a b c).it, it.event = "IntentExecuted") ∧
      (∀ w ∈ (WatchIntentExecuted contract wopts a b c).task, w.name = "IntentExecuted") ∧
      EventKind.IntentExecuted.name = "IntentExecuted") ∧
    (((FilterSwapTargetsUpdated contract fopts).calls.map (fun x => (x.name, x.query)) =
          [("SwapTargetsUpdated", [])] ∧
        (WatchSwapTargetsUpdated contract wopts).calls.map (fun x => (x.name, x.query)) =
          [("SwapTargetsUpdated", [])]) ∧
      (∀ it ∈ (FilterSwapTargetsUpdated contract fopts).it,
        it.event = "SwapTargetsUpdated") ∧
      (∀ w ∈ (WatchSwapTargetsUpdated contract wopts).task,
        w.name = "SwapTargetsUpdated") ∧
      EventKind.SwapTargetsUpdated.name = "SwapTargetsUpdated") ∧
    (((FilterTreasuryUpdated contract fopts a b).calls.map (fun x => (x.name, x.query)) =
          [("TreasuryUpdated", [a.map Any.address, b.map Any.address])] ∧
        (WatchTreasuryUpdated contract wopts a b).calls.map (fun x => (x.name, x.query)) =
          [("TreasuryUpdated", [a.map Any.address, b.map Any.address])]) ∧
      (∀ it ∈ (FilterTreasuryUpdated contract fopts a b).it, it.event = "TreasuryUpdated") ∧
      (∀ w ∈ (WatchTreasuryUpdated contract wopts a b).task, w.name = "TreasuryUpdated") ∧
      EventKind.TreasuryUpdated.name = "TreasuryUpdated") ∧
    (∀ (k : EventKind) (log : Log), Parse k contract log =
      match contract.UnpackLog k (Record.new k) k.name log with
      | (_, some err) => (none, some err)
      | (out, none) => (some (Record.setRaw out log), none)) ∧
    (∀ (k : EventKind) (it : Iterator k) (log : Log), it.onLog log =
      match it.contract.UnpackLog k (Record.new k) it.event log with
      | (out, some err) =>
          (false, { it with Event := some out, fail := some err })
      | (out, none) => (true, { it with Event := some (Record.setRaw out log) })) ∧
    (∀ (k : EventKind) (w : WatchTask k) (log : Log) (rest : Chan Log), w.pc = .outer →
      w.logs.recv Log.zero = some (log, rest) →
      w.step impl WatchCase.logs =
        match w.contract.UnpackLog k (Record.new k) w.name log with
        | (_, some err) => some (WatchTask.ret impl { w with logs := rest } (some err))
        | (event, none) =>
            some { w with logs := rest, pc := .inner (Record.setRaw event log) }) := by
  refine ⟨⟨⟨?_, ?_⟩, ?_, ?_, rfl⟩, ⟨⟨?_, ?_⟩, ?_, ?_, rfl⟩, ⟨⟨?_, ?_⟩, ?_, ?_, rfl⟩,
    ⟨⟨?_, ?_⟩, ?_, ?_, rfl⟩, fun k log => Parse_eq k contract log, ?_, ?_⟩
  · simp only [FilterExecutorUpdated, filterLogsInto_calls, appendRule_eq_map, List.map]
  · simp only [WatchExecutorUpdated, watchLogsInto_calls, appendRule_eq_map, List.map]
  · intro it h; exact (filterLogsInto_event _ _ _ _ _ it h).1
  · intro w h; exact (watchLogsInto_name _ _ _ _ _ w h).1
  · simp only [FilterIntentExecuted, filterLogsInto_calls, appendRule_eq_map, List.map]
  · simp only [WatchIntentExecuted, watchLogsInto_calls, appendRule_eq_map, List.map]
  · intro it h; exact (filterLogsInto_event _ _ _ _ _ it h).1
  · intro w h; exact (watchLogsInto_name _ _ _ _ _ w h).1
  · simp only [FilterSwapTargetsUpdated, filterLogsInto_calls, List.map]
  · simp only [WatchSwapTargetsUpdated, watchLogsInto_calls, List.map]
  · intro it h; exact (filterLogsInto_event _ _ _ _ _ it h).1
  · intro w h; exact (watchLogsInto_name _ _ _ _ _ w h).1
  · simp only [FilterTreasuryUpdated, filterLogsInto_calls, appendRule_eq_map, List.map]
  · simp only [WatchTreasuryUpdated, watchLogsInto_calls, appendRule_eq_map, List.map]
  · intro it h; exact (filterLogsInto_event _ _ _ _ _ it h).1
  · intro w h; exact (watchLogsInto_name _ _ _ _ _ w h).1
  · intro k it log
    rcases hu : it.contract.UnpackLog k (Record.new k) it.event log with ⟨out, _ | e⟩
    · exact Iterator.onLog_ok it log out hu
    · exact Iterator.onLog_err it log out e hu
  · intro k w log rest hp hl
    unfold WatchTask.step
    rw [hp]
    simp only [hl]

/-! ## The last theorems at the sample backend -/

/-- C21 at the sample task holding a record: cancellation returns nil and the record is
not sent. -/
theorem Watch_quit_returns_nil_witness :
    heldTask.pc.isReturned = false ∧
    heldTask.step sampleImpl WatchCase.quit = some (WatchTask.ret sampleImpl heldTask none) ∧
    (WatchTask.ret sampleImpl heldTask none).pc = .returned none ∧
    (WatchTask.ret sampleImpl heldTask none).sink = heldTask.sink ∧
    heldTask.sink = [] :=
  ⟨rfl, (Watch_quit_returns_nil .ExecutorUpdated sampleImpl heldTask rfl).1,
    (Watch_quit_returns_nil .ExecutorUpdated sampleImpl heldTask rfl).2.1,
    (Watch_quit_returns_nil .ExecutorUpdated sampleImpl heldTask rfl).2.2.1, rfl⟩

/-- C22 at the interrupted iterator, the select taking the upstream case: the traced run
gives the result of `Next`, this call is the one self-call, and it returns. -/
theorem Next_calls_itself_at_most_once_witness :
    (interruptedIterator.NextTraced SelectCase.err).2 =
        interruptedIterator.Next SelectCase.err ∧
      (interruptedIterator.NextTraced SelectCase.err).1 ≤ 1 ∧
      ∃ r, interruptedIterator.Next SelectCase.err = some r :=
  ⟨(Next_calls_itself_at_most_once .ExecutorUpdated SelectCase.err interruptedIterator).1,
    (Next_calls_itself_at_most_once .ExecutorUpdated SelectCase.err interruptedIterator).2.1,
    (Next_calls_itself_at_most_once .ExecutorUpdated SelectCase.err
      interruptedIterator).2.2.2.2.1 (Or.inl (by simp [interruptedIterator, Chan.recv]))⟩

/-- C23 at the truncated log: the log that fails to decode is removed from the buffer and
every later call returns false. -/
theorem Next_removes_at_most_one_log_witness :
    ∃ it1, truncatedIterator.Next SelectCase.logs = some (false, it1) ∧
      it1.logs.buf = [] ∧ it1.fail = some ⟨"topic count mismatch"⟩ ∧
      ∀ picks : List SelectCase,
        it1.NextSeq picks = some (picks.map (fun _ => (false, it1))) :=
  (Next_removes_at_most_one_log .IntentExecuted SelectCase.logs truncatedIterator).2.2.2
    truncatedLog []
    { Record.new .IntentExecuted with InputAmt := some 10, UserAmtOut := some 9,
                                      Received := some 11, Surplus := some 2 }
    ⟨"topic count mismatch"⟩ rfl rfl (Or.inr (Or.inl rfl)) rfl

end Ifastsettlementv3
